import Mathlib

/-!
Verification development for the Milvus WAL buffer manager
(`src/core/src/db/wal/WalBuffer.cpp`, class `MXLogBuffer`).

The C++ code is shallowly embedded: machine integers are `Nat` with explicit
`% 2^32` (`% 2^16`, …) wherever the C++ performs `uint32_t`/`uint16_t`
arithmetic that can wrap; the two memory slabs are byte lists; the on-disk
files are a map from file number to byte list.  The record header struct
(`MXLogRecordHeader`, declared in `WalDefinations.h`, which is not part of
the source excerpt) and the file handler (`MXLogFileHandler`) are modelled
from the spec, as noted on each definition.
-/

set_option maxRecDepth 100000

namespace Wal

/-- Word bounds used by the embedding. -/
def U32 : Nat := 4294967296

def U16 : Nat := 65536

/-- Record type discriminator.  Modelled from the spec: `MXLogType` is
declared in `WalDefinations.h` (not in the source excerpt); the spec lists
the enumerators `{None, InsertEntity, DeleteEntity, Flush, …}` stored in one
byte on disk. -/
inductive MXLogType
  | None
  | InsertEntity
  | DeleteEntity
  | Flush
deriving DecidableEq

/-- Cast of the enum to its one-byte on-disk value (`(uint8_t)record.type`). -/
def MXLogType.toByte : MXLogType → Nat
  | .None => 0
  | .InsertEntity => 1
  | .DeleteEntity => 2
  | .Flush => 3

/-- Cast of an on-disk byte back to the enum (`(MXLogType)head->mxl_type`);
bytes outside the enumerator range are mapped to `None`. -/
def MXLogType.ofByte : Nat → MXLogType
  | 1 => .InsertEntity
  | 2 => .DeleteEntity
  | 3 => .Flush
  | _ => .None

/-- The in-memory log record (`MXLogRecord`).  Byte strings (`table_id`,
`partition_tag`, `data`) are byte lists; `ids` is the list of 64-bit entity
IDs (`IDNumber*` + `length` in C++, a null pointer modelled as `[]`). -/
structure MXLogRecord where
  type : MXLogType
  lsn : Nat
  table_id : List Nat
  partition_tag : List Nat
  length : Nat
  ids : List Nat
  data_size : Nat
  data : List Nat
deriving DecidableEq

/-- One buffer cursor (`MXLogBufferHandler`).  `Reset` copies the whole
struct with `memcpy`, so the writer cursor also carries the (unused)
`max_offset` field, exactly as in the C++. -/
structure MXLogBufferHandler where
  max_offset : Nat
  file_no : Nat
  buf_offset : Nat
  buf_idx : Nat
deriving DecidableEq

/-- File open mode of the active file handler.  Modelled from the spec:
`SetFileOpenMode` takes one of `"w"`, `"r+"`, `"r"`. -/
inductive FileMode
  | W
  | RPlus
  | R
deriving DecidableEq

/-- Error codes surfaced by `Append`/`Next` (`WAL_SUCCESS`, `WAL_FILE_ERROR`). -/
inductive ErrorCode
  | WAL_SUCCESS
  | WAL_FILE_ERROR
deriving DecidableEq

/-- Whole-state of one `MXLogBuffer` plus its durable environment: the two
slabs `buf_[0]`/`buf_[1]`, the two cursors, the active file handler
(`mxlog_writer_`: active file number, open mode, open flag) and the disk,
a map from file number `n` (file `<n>.wal`) to its byte content. -/
structure WalState where
  mxlog_buffer_size : Nat
  buf0 : List Nat
  buf1 : List Nat
  writer : MXLogBufferHandler
  reader : MXLogBufferHandler
  fh_file_no : Nat
  fh_mode : FileMode
  fh_open : Bool
  disk : Nat → Option (List Nat)

/-- Outcome oracle for the fallible file-handler calls of a single
`Append`/`Next`/`SetWriteLsn` call (I/O errors are environmental). -/
structure WalEnv where
  reborn_ok : Bool
  write_ok : Bool
  open_ok : Bool
  load_ok : Bool
deriving DecidableEq

/-- Environment in which every I/O call succeeds. -/
def envOk : WalEnv := ⟨true, true, true, true⟩

/-- BuildLsn: `lsn = (uint64)file_no << 32 | offset` (both args are `uint32`). -/
def buildLsn (file_no offset : Nat) : Nat := file_no % U32 * U32 + offset % U32

/-- ParserLsn, high half: `file_no = uint32(lsn >> 32)`. -/
def lsnFile (lsn : Nat) : Nat := lsn / U32 % U32

/-- ParserLsn, low half: `offset = uint32(lsn & LSN_OFFSET_MASK)`. -/
def lsnOffset (lsn : Nat) : Nat := lsn % U32

/-- Unsigned 32-bit subtraction, wrapping as in C++. -/
def u32sub (a b : Nat) : Nat := (a % U32 + U32 - b % U32) % U32

/-- SizeOfMXLogRecordHeader: 21 bytes (spec section 4.2 header layout). -/
def sizeOfHeader : Nat := 21

/-- RecordSize: header + table_id + partition_tag + `length * sizeof(IDNumber)`
+ data_size, computed in `uint32_t` arithmetic. -/
def recordSize (r : MXLogRecord) : Nat :=
  (sizeOfHeader + r.table_id.length % U32 + r.partition_tag.length % U32
    + r.length % U32 * 8 % U32 + r.data_size % U32) % U32

/-- The record size without `uint32` wrapping; equals `recordSize` whenever
it is below `2^32` (see `recordSize_eq_rawSize`). -/
def rawSize (r : MXLogRecord) : Nat :=
  sizeOfHeader + r.table_id.length + r.partition_tag.length + 8 * r.length + r.data_size

/-- SurplusSpace: `mxlog_buffer_size_ - mxlog_buffer_writer_.buf_offset`
(`uint32` subtraction). -/
def surplusSpace (s : WalState) : Nat := u32sub s.mxlog_buffer_size s.writer.buf_offset

/-- GetReadLsn: pack the reader cursor. -/
def getReadLsn (s : WalState) : Nat := buildLsn s.reader.file_no s.reader.buf_offset

/-- GetWriteLsn: pack the writer cursor. -/
def getWriteLsn (s : WalState) : Nat := buildLsn s.writer.file_no s.writer.buf_offset

/-- On-disk record header (`MXLogRecordHeader`).  Modelled from the spec:
the struct is declared in `WalDefinations.h` (not in the source excerpt);
the spec gives the packed layout `lsn u64 | type u8 | collection_id_size u16
| partition_tag_size u16 | vector_num u32 | data_size u32`, 21 bytes. -/
structure MXLogRecordHeader where
  mxl_lsn : Nat
  mxl_type : Nat
  table_id_size : Nat
  partition_tag_size : Nat
  vector_num : Nat
  data_size : Nat
deriving DecidableEq

/-- Little-endian byte encoding of `v` in `k` bytes. -/
def leBytes : Nat → Nat → List Nat
  | 0, _ => []
  | k + 1, v => v % 256 :: leBytes k (v / 256)

/-- Value of a little-endian byte list. -/
def leVal : List Nat → Nat
  | [] => 0
  | b :: bs => b + 256 * leVal bs

/-- Byte image of the packed header struct (the `memcpy` source). -/
def headerBytes (h : MXLogRecordHeader) : List Nat :=
  leBytes 8 h.mxl_lsn ++ leBytes 1 h.mxl_type ++ leBytes 2 h.table_id_size
    ++ leBytes 2 h.partition_tag_size ++ leBytes 4 h.vector_num ++ leBytes 4 h.data_size

/-- Byte image of an `IDNumber` array (8 bytes per ID, host little-endian). -/
def idsBytes : List Nat → List Nat
  | [] => []
  | x :: xs => leBytes 8 x ++ idsBytes xs

/-- Reinterpret `k` IDs from a byte region (`(IDNumber*)` view in `Next`). -/
def decodeIds : Nat → List Nat → List Nat
  | 0, _ => []
  | k + 1, bs => leVal (bs.take 8) :: decodeIds k (bs.drop 8)

/-- memcpy of `p` into `slab` at byte offset `off`. -/
def writeAt (slab : List Nat) (off : Nat) (p : List Nat) : List Nat :=
  slab.take off ++ p ++ slab.drop (off + p.length)

/-- Read `k` bytes of `slab` starting at `off`. -/
def readBytes (slab : List Nat) (off k : Nat) : List Nat := (slab.drop off).take k

/-- `buf_[idx]`. -/
def getSlab (s : WalState) (idx : Nat) : List Nat := if idx = 0 then s.buf0 else s.buf1

/-- Replace `buf_[idx]`. -/
def setSlab (s : WalState) (idx : Nat) (b : List Nat) : WalState :=
  if idx = 0 then { s with buf0 := b } else { s with buf1 := b }

/-- GetFileSize of file `<n>.wal` (0 when the file does not exist).
Modelled from the spec: `MXLogFileHandler` is not in the source excerpt. -/
def fileSize (disk : Nat → Option (List Nat)) (n : Nat) : Nat :=
  match disk n with
  | some bs => bs.length
  | none => 0

/-- Append `bytes` to the handler's active file, creating it if absent.
Modelled from the spec: `Write(src, nbytes)` appends with flush-on-write. -/
def diskWrite (s : WalState) (bytes : List Nat) : WalState :=
  { s with disk := fun n =>
      if n = s.fh_file_no then
        some ((match s.disk s.fh_file_no with | some bs => bs | none => []) ++ bytes)
      else s.disk n }

/-- ReBorn: close the active file, rename the handler to `<new_no>.wal` and
open it in `"w"` (create/truncate) mode.  Modelled from the spec section 4.1. -/
def rebornFH (s : WalState) (new_no : Nat) : WalState :=
  { s with fh_file_no := new_no, fh_mode := .W, fh_open := true,
           disk := fun n => if n = new_no then some [] else s.disk n }

/-- Cursor mutation of the `Append` rollover branch (WalBuffer.cpp lines
201-209): under the mutex, if the two cursors share a slab, freeze
`reader.max_offset` and flip the writer slab; then advance the writer to the
next file at offset 0 (`uint32` increment). -/
def rolloverCursors (s : WalState) : WalState :=
  let s1 :=
    if s.writer.buf_idx = s.reader.buf_idx then
      { s with reader := { s.reader with max_offset := s.writer.buf_offset },
               writer := { s.writer with buf_idx := s.writer.buf_idx ^^^ 1 } }
    else s
  { s1 with writer := { s1.writer with file_no := (s1.writer.file_no + 1) % U32,
                                       buf_offset := 0 } }

/-- Header built by `Append` (WalBuffer.cpp lines 222-228): the record's LSN
points just past the record; sizes are narrowed by the struct field types. -/
def appendHeader (s : WalState) (r : MXLogRecord) (n : Nat) : MXLogRecordHeader :=
  { mxl_lsn := buildLsn s.writer.file_no (s.writer.buf_offset + n),
    mxl_type := r.type.toByte,
    table_id_size := r.table_id.length % U16,
    partition_tag_size := r.partition_tag.length % U16,
    vector_num := r.length % U32,
    data_size := r.data_size % U32 }

/-- Bytes the ids `memcpy` copies: `record.length * sizeof(IDNumber)` bytes
from `record.ids`, skipped when the pointer is null or the length is 0.  (On
an inconsistent record the C++ would read out of bounds; the model truncates
at the array end instead.) -/
def idsChunk (r : MXLogRecord) : List Nat :=
  if r.ids ≠ [] ∧ 0 < r.length then (idsBytes r.ids).take (r.length * 8) else []

/-- Bytes the data `memcpy` copies, with the same null/zero-size guard. -/
def dataChunk (r : MXLogRecord) : List Nat :=
  if r.data ≠ [] ∧ 0 < r.data_size then r.data.take r.data_size else []

/-- Full byte image `Append` serializes at `writer.buf_offset`. -/
def appendPayload (s : WalState) (r : MXLogRecord) (n : Nat) : List Nat :=
  headerBytes (appendHeader s r n) ++ r.table_id ++ r.partition_tag
    ++ idsChunk r ++ dataChunk r

/-- Serialization and file write of `Append` (WalBuffer.cpp lines 218-261):
serialize header and payloads into the writer slab, `Write` the
`record_size` bytes at `writer.buf_offset` to the active file, then advance
`writer.buf_offset` and publish the LSN into `record.lsn`.  A failed `Write`
returns `WAL_FILE_ERROR` with the slab already mutated and the cursor and
record untouched. -/
def appendBody (env : WalEnv) (s : WalState) (r : MXLogRecord) (n : Nat) :
    ErrorCode × WalState × MXLogRecord :=
  let p := appendPayload s r n
  let slab1 := writeAt (getSlab s s.writer.buf_idx) s.writer.buf_offset p
  let s1 := setSlab s s.writer.buf_idx slab1
  if env.write_ok then
    (.WAL_SUCCESS,
      { diskWrite s1 (readBytes slab1 s.writer.buf_offset n) with
          writer := { s.writer with buf_offset := (s.writer.buf_offset + p.length) % U32 } },
      { r with lsn := (appendHeader s r n).mxl_lsn })
  else (.WAL_FILE_ERROR, s1, r)

/-- MXLogBuffer::Append (WalBuffer.cpp lines 196-262). -/
def append (env : WalEnv) (s : WalState) (r : MXLogRecord) :
    ErrorCode × WalState × MXLogRecord :=
  let n := recordSize r
  if surplusSpace s < n then
    let s1 := rolloverCursors s
    if env.reborn_ok then appendBody env (rebornFH s1 s1.writer.file_no) r n
    else (.WAL_FILE_ERROR, s1, r)
  else appendBody env s r n

/-- Record deserialization of `Next` (WalBuffer.cpp lines 305-344): read the
header at `reader.buf_offset`, fill the record (empty fields become empty
strings / null pointers; `ids` and `data` are views into the slab), then
advance `reader.buf_offset` to the low half of the header LSN. -/
def nextDeserialize (s : WalState) (r : MXLogRecord) :
    ErrorCode × WalState × MXLogRecord :=
  let slab := getSlab s s.reader.buf_idx
  let off := s.reader.buf_offset
  let h_lsn := leVal (readBytes slab off 8)
  let h_type := leVal (readBytes slab (off + 8) 1)
  let h_tid := leVal (readBytes slab (off + 9) 2)
  let h_ptag := leVal (readBytes slab (off + 11) 2)
  let h_vnum := leVal (readBytes slab (off + 13) 4)
  let h_dsize := leVal (readBytes slab (off + 17) 4)
  let r1 : MXLogRecord :=
    { r with
      type := MXLogType.ofByte h_type,
      lsn := h_lsn,
      length := h_vnum,
      data_size := h_dsize,
      table_id := if h_tid ≠ 0 then readBytes slab (off + 21) h_tid else [],
      partition_tag := if h_ptag ≠ 0 then readBytes slab (off + 21 + h_tid) h_ptag else [],
      ids := if h_vnum ≠ 0 then decodeIds h_vnum (slab.drop (off + 21 + h_tid + h_ptag)) else [],
      data := if h_dsize ≠ 0 then readBytes slab (off + 21 + h_tid + h_ptag + h_vnum * 8) h_dsize
              else [] }
  (.WAL_SUCCESS, { s with reader := { s.reader with buf_offset := h_lsn % U32 } }, r1)

/-- MXLogBuffer::Next (WalBuffer.cpp lines 264-345).  `r0` is the caller's
record variable; its `type` is defaulted to `None` first.  When the reader
has exhausted a sealed segment it advances to the next file, adopting the
writer slab if it caught up, otherwise demand-loading the whole segment file
(read-only open + load; failure of either returns `WAL_FILE_ERROR` with the
reader cursor already advanced). -/
def next (env : WalEnv) (s : WalState) (last_applied_lsn : Nat) (r0 : MXLogRecord) :
    ErrorCode × WalState × MXLogRecord :=
  let r := { r0 with type := MXLogType.None }
  if last_applied_lsn ≤ getReadLsn s then (.WAL_SUCCESS, s, r)
  else
    let adv := s.reader.file_no ≠ s.writer.file_no
        ∧ s.reader.buf_offset = s.reader.max_offset
    let s1 :=
      if adv then
        let rd := { s.reader with file_no := (s.reader.file_no + 1) % U32, buf_offset := 0 }
        let rd := if rd.file_no = s.writer.file_no then { rd with buf_idx := s.writer.buf_idx }
                  else rd
        { s with reader := rd }
      else s
    if adv ∧ s1.reader.file_no ≠ s1.writer.file_no then
      match s1.disk s1.reader.file_no with
      | none => (.WAL_FILE_ERROR, s1, r)
      | some bytes =>
        if env.open_ok ∧ env.load_ok then
          let s2 := setSlab s1 s1.reader.buf_idx (writeAt (getSlab s1 s1.reader.buf_idx) 0 bytes)
          nextDeserialize
            { s2 with reader := { s2.reader with max_offset := bytes.length % U32 } } r
        else (.WAL_FILE_ERROR, s1, r)
    else nextDeserialize s1 r

/-- MXLogBuffer::Reset (WalBuffer.cpp lines 163-182): reallocate both slabs,
place the writer just after `lsn` rounded up to a file boundary on slab 0,
copy the whole writer cursor struct into the reader, close the handler and
point it at the new file in `"w"` mode (not yet opened). -/
def reset (s : WalState) (lsn : Nat) : WalState :=
  let w0 := { s.writer with file_no := lsnFile lsn, buf_offset := lsnOffset lsn }
  let w1 := if w0.buf_offset ≠ 0 then
      { w0 with file_no := (w0.file_no + 1) % U32, buf_offset := 0 }
    else w0
  let w2 := { w1 with buf_idx := 0 }
  { s with buf0 := List.replicate s.mxlog_buffer_size 0,
           buf1 := List.replicate s.mxlog_buffer_size 0,
           writer := w2, reader := w2,
           fh_open := false, fh_file_no := w2.file_no, fh_mode := .W }

/-- Scan of the recovery files `i, i+1, …, i+k-1` (WalBuffer.cpp lines
82-92): `none` when some file has size 0, otherwise the maximum size. -/
def scanNeed (disk : Nat → Option (List Nat)) : Nat → Nat → Option Nat
  | _, 0 => some 0
  | i, k + 1 =>
    let sz := fileSize disk i
    if sz = 0 then none
    else match scanNeed disk (i + 1) k with
      | none => none
      | some m => some (Nat.max sz m)

/-- Slab allocation and initial load of `Init` (WalBuffer.cpp lines
103-160): allocate both slabs at the (possibly grown) buffer size, then set
up either the shared read-write slab or the two-slab reader/writer pair,
loading the needed file ranges.  `Load` succeeds exactly when the requested
range lies inside the file (spec section 4.1: false on short read); note the
C++ ignores the result of the reader-file load in the two-slab branch. -/
def initAlloc (s0 : WalState) : Bool × WalState :=
  let s := { s0 with buf0 := List.replicate s0.mxlog_buffer_size 0,
                     buf1 := List.replicate s0.mxlog_buffer_size 0 }
  if s.reader.file_no = s.writer.file_no then
    let s := { s with reader := { s.reader with buf_idx := 0 },
                      writer := { s.writer with buf_idx := 0 },
                      fh_file_no := s.writer.file_no }
    if s.writer.buf_offset = 0 then (true, { s with fh_mode := .W })
    else
      let s := { s with fh_mode := .RPlus }
      match s.disk s.writer.file_no with
      | none => (false, s)
      | some bytes =>
        let len := u32sub s.writer.buf_offset s.reader.buf_offset
        if s.reader.buf_offset + len ≤ bytes.length then
          (true, { s with buf0 := writeAt s.buf0 s.reader.buf_offset
                            ((bytes.drop s.reader.buf_offset).take len) })
        else (false, s)
  else
    let s := { s with reader := { s.reader with buf_idx := 0 } }
    match s.disk s.reader.file_no with
    | none => (false, s)
    | some rbytes =>
      let s := { s with reader := { s.reader with max_offset := rbytes.length % U32 } }
      let len := u32sub s.reader.max_offset s.reader.buf_offset
      let s :=
        if s.reader.buf_offset + len ≤ rbytes.length then
          { s with buf0 := writeAt s.buf0 s.reader.buf_offset
                    ((rbytes.drop s.reader.buf_offset).take len) }
        else s
      let s := { s with writer := { s.writer with buf_idx := 1 },
                        fh_file_no := s.writer.file_no, fh_mode := .RPlus }
      match s.disk s.writer.file_no with
      | none => (false, s)
      | some wbytes =>
        if s.writer.buf_offset ≤ wbytes.length then
          (true, { s with buf1 := writeAt s.buf1 0 (wbytes.take s.writer.buf_offset) })
        else (false, s)

/-- MXLogBuffer::Init (WalBuffer.cpp lines 62-161): unpack both LSNs into
the cursors; when `start_lsn == end_lsn` skip to the next file boundary if
needed, otherwise scan every file in `[reader.file_no, writer.file_no)`,
failing on a zero-size file and growing `mxlog_buffer_size_` to the largest
of the scanned sizes and `writer.buf_offset`; then allocate and load. -/
def init (s : WalState) (start_lsn end_lsn : Nat) : Bool × WalState :=
  let s0 := { s with
    reader := { s.reader with file_no := lsnFile start_lsn, buf_offset := lsnOffset start_lsn },
    writer := { s.writer with file_no := lsnFile end_lsn, buf_offset := lsnOffset end_lsn } }
  if start_lsn = end_lsn then
    let s1 :=
      if s0.writer.buf_offset ≠ 0 then
        { s0 with
          writer := { s0.writer with file_no := (s0.writer.file_no + 1) % U32, buf_offset := 0 },
          reader := { s0.reader with file_no := (s0.reader.file_no + 1) % U32, buf_offset := 0 } }
      else s0
    initAlloc s1
  else
    match scanNeed s0.disk s0.reader.file_no (s0.writer.file_no - s0.reader.file_no) with
    | none => (false, s0)
    | some m =>
      let need := Nat.max m s0.writer.buf_offset
      let s1 := if s0.mxlog_buffer_size < need then { s0 with mxlog_buffer_size := need } else s0
      initAlloc s1

/-- MXLogBuffer::SetWriteLsn (WalBuffer.cpp lines 354-379): repoint the
writer cursor; same file keeps everything else, the reader's file adopts the
reader slab, any other file reborns the handler and loads the file's prefix
`[0, new_offset)` into the writer slab. -/
def setWriteLsn (env : WalEnv) (s : WalState) (lsn : Nat) : Bool × WalState :=
  let old := s.writer.file_no
  let s := { s with writer := { s.writer with file_no := lsnFile lsn,
                                              buf_offset := lsnOffset lsn } }
  if old = s.writer.file_no then (true, s)
  else if s.writer.file_no = s.reader.file_no then
    (true, { s with writer := { s.writer with buf_idx := s.reader.buf_idx } })
  else if env.reborn_ok then
    let s := rebornFH s s.writer.file_no
    match s.disk s.writer.file_no with
    | some bytes =>
      if env.load_ok ∧ s.writer.buf_offset ≤ bytes.length then
        (true, setSlab s s.writer.buf_idx
          (writeAt (getSlab s s.writer.buf_idx) 0 (bytes.take s.writer.buf_offset)))
      else (false, s)
    | none => (false, s)
  else (false, s)

/-! ### Well-formedness predicates -/

/-- Field consistency of a record, as the C++ field types and the callers
guarantee it: the byte strings fit their 16-bit size fields, `length` and
`data_size` are `uint32` values, `ids` holds exactly `length` 64-bit IDs and
`data` exactly `data_size` bytes. -/
def wfRecord (r : MXLogRecord) : Prop :=
  r.table_id.length < U16 ∧ r.partition_tag.length < U16 ∧
  r.length < U32 ∧ r.data_size < U32 ∧
  r.ids.length = r.length ∧ r.data.length = r.data_size ∧
  ∀ x ∈ r.ids, x < 2 ^ 64

instance (r : MXLogRecord) : Decidable (wfRecord r) := by
  unfold wfRecord; infer_instance

/-- Basic shape facts every initialized buffer state satisfies: the slabs
have exactly `mxlog_buffer_size` bytes, all `uint32` fields are in range and
the writer offset is inside the buffer. -/
def wfState (s : WalState) : Prop :=
  s.buf0.length = s.mxlog_buffer_size ∧ s.buf1.length = s.mxlog_buffer_size ∧
  s.mxlog_buffer_size < U32 ∧ s.writer.buf_offset ≤ s.mxlog_buffer_size ∧
  s.writer.file_no < U32 ∧ s.reader.file_no < U32 ∧
  s.writer.buf_idx < 2 ∧ s.reader.buf_idx < 2 ∧
  s.reader.buf_offset < U32 ∧ s.reader.max_offset < U32

instance (s : WalState) : Decidable (wfState s) := by
  unfold wfState; infer_instance

/-! ### Codec lemmas -/

theorem leBytes_length (k v : Nat) : (leBytes k v).length = k := by
  induction k generalizing v with
  | zero => rfl
  | succ k ih => simp [leBytes, ih]

theorem leVal_leBytes (k v : Nat) : leVal (leBytes k v) = v % 256 ^ k := by
  induction k generalizing v with
  | zero => simp [leBytes, leVal, Nat.mod_one]
  | succ k ih =>
    rw [leBytes, leVal, ih]
    rw [pow_succ, mul_comm (256 ^ k) 256, Nat.mod_mul]

theorem leVal_leBytes_of_lt {k v : Nat} (h : v < 256 ^ k) : leVal (leBytes k v) = v := by
  rw [leVal_leBytes, Nat.mod_eq_of_lt h]

theorem idsBytes_length (l : List Nat) : (idsBytes l).length = 8 * l.length := by
  induction l with
  | nil => rfl
  | cons x xs ih => simp [idsBytes, ih, leBytes_length]; ring

theorem decodeIds_idsBytes (l rest : List Nat) (h : ∀ x ∈ l, x < 2 ^ 64) :
    decodeIds l.length (idsBytes l ++ rest) = l := by
  induction l with
  | nil => rfl
  | cons x xs ih =>
    have hx : x < 2 ^ 64 := h x (List.mem_cons_self x xs)
    have hlen : (leBytes 8 x).length = 8 := leBytes_length 8 x
    rw [List.length_cons, idsBytes, List.append_assoc, decodeIds]
    have htake : ((leBytes 8 x ++ (idsBytes xs ++ rest)).take 8) = leBytes 8 x := by
      have h0 := List.take_left (leBytes 8 x) (idsBytes xs ++ rest)
      rwa [hlen] at h0
    have hdrop : ((leBytes 8 x ++ (idsBytes xs ++ rest)).drop 8) = idsBytes xs ++ rest := by
      have h0 := List.drop_left (leBytes 8 x) (idsBytes xs ++ rest)
      rwa [hlen] at h0
    rw [htake, hdrop, ih (fun y hy => h y (List.mem_cons_of_mem x hy))]
    rw [leVal_leBytes_of_lt (by exact_mod_cast hx)]

/-! ### writeAt / readBytes lemmas -/

theorem writeAt_length {slab : List Nat} {off : Nat} (p : List Nat)
    (h : off + p.length ≤ slab.length) : (writeAt slab off p).length = slab.length := by
  simp only [writeAt, List.length_append, List.length_take, List.length_drop]
  omega

theorem drop_writeAt {slab : List Nat} {off : Nat} (p : List Nat) (a : Nat)
    (hoff : off ≤ slab.length) (ha : a ≤ p.length) :
    (writeAt slab off p).drop (off + a) = p.drop a ++ slab.drop (off + p.length) := by
  have h1 : (slab.take off).length = off := by
    simp [List.length_take]; omega
  rw [writeAt, List.append_assoc]
  rw [show off + a = (slab.take off).length + a by rw [h1]]
  rw [List.drop_append]
  rw [List.drop_append_eq_append_drop]
  rw [show a - p.length = 0 by omega, List.drop_zero]

theorem readBytes_writeAt {slab : List Nat} {off : Nat} (p : List Nat) (a k : Nat)
    (hoff : off ≤ slab.length) (hak : a + k ≤ p.length) :
    readBytes (writeAt slab off p) (off + a) k = (p.drop a).take k := by
  rw [readBytes, drop_writeAt p a hoff (by omega)]
  have : k ≤ (p.drop a).length := by simp [List.length_drop]; omega
  rw [List.take_append_of_le_length this]

theorem take_cat {A rest : List Nat} (k : Nat) (h : A.length = k) :
    (A ++ rest).take k = A := by
  have h0 := List.take_left A rest
  rwa [h] at h0

theorem drop_cat {A rest : List Nat} (a : Nat) (h : A.length = a) :
    (A ++ rest).drop a = rest := by
  have h0 := List.drop_left A rest
  rwa [h] at h0

/-! ### Arithmetic helper lemmas -/

theorem u32sub_exact {a b : Nat} (h : b ≤ a) (ha : a < U32) : u32sub a b = a - b := by
  unfold u32sub U32 at *
  omega

theorem recordSize_eq_rawSize {r : MXLogRecord} (hwf : wfRecord r)
    (h : rawSize r < U32) : recordSize r = rawSize r := by
  obtain ⟨h1, h2, h3, h4, -, -, -⟩ := hwf
  unfold recordSize rawSize sizeOfHeader at *
  unfold U16 U32 at *
  omega

theorem MXLogType.ofByte_toByte (t : MXLogType) : MXLogType.ofByte t.toByte = t := by
  cases t <;> rfl

/-! ### Payload structure lemmas -/

theorem headerBytes_length (h : MXLogRecordHeader) : (headerBytes h).length = 21 := by
  simp [headerBytes, leBytes_length]

theorem idsChunk_eq {r : MXLogRecord} (hwf : wfRecord r) : idsChunk r = idsBytes r.ids := by
  obtain ⟨-, -, -, -, hlen, -, -⟩ := hwf
  unfold idsChunk
  by_cases hne : r.ids = []
  · have : r.length = 0 := by rw [← hlen, hne]; rfl
    simp [hne, this, idsBytes]
  · have hpos : 0 < r.length := by
      rw [← hlen]
      cases hi : r.ids with
      | nil => exact absurd hi hne
      | cons a l => simp
    rw [if_pos ⟨hne, hpos⟩]
    apply List.take_of_length_le
    rw [idsBytes_length, ← hlen]
    omega

theorem dataChunk_eq {r : MXLogRecord} (hwf : wfRecord r) : dataChunk r = r.data := by
  obtain ⟨-, -, -, -, -, hlen, -⟩ := hwf
  unfold dataChunk
  by_cases h : r.data = []
  · simp [h]
  · have hpos : 0 < r.data_size := by
      rw [← hlen]
      cases hi : r.data with
      | nil => exact absurd hi h
      | cons a l => simp
    rw [if_pos ⟨h, hpos⟩]
    apply List.take_of_length_le
    omega

theorem appendPayload_eq {s : WalState} {r : MXLogRecord} {n : Nat} (hwf : wfRecord r) :
    appendPayload s r n
      = headerBytes (appendHeader s r n) ++ r.table_id ++ r.partition_tag
          ++ idsBytes r.ids ++ r.data := by
  rw [appendPayload, idsChunk_eq hwf, dataChunk_eq hwf]

theorem appendPayload_length {s : WalState} {r : MXLogRecord} {n : Nat} (hwf : wfRecord r) :
    (appendPayload s r n).length = rawSize r := by
  rw [appendPayload_eq hwf]
  obtain ⟨-, -, -, -, hids, hdata, -⟩ := hwf
  simp [rawSize, headerBytes_length, idsBytes_length, hids, hdata, sizeOfHeader]
  ring

/-- Canonical byte image of a consistent record whose header LSN is `lsnv`. -/
def payloadFor (r : MXLogRecord) (lsnv : Nat) : List Nat :=
  headerBytes
      { mxl_lsn := lsnv, mxl_type := r.type.toByte,
        table_id_size := r.table_id.length % U16,
        partition_tag_size := r.partition_tag.length % U16,
        vector_num := r.length % U32, data_size := r.data_size % U32 }
    ++ r.table_id ++ r.partition_tag ++ idsBytes r.ids ++ r.data

theorem appendPayload_eq_payloadFor {s : WalState} {r : MXLogRecord} {n : Nat}
    (hwf : wfRecord r) :
    appendPayload s r n = payloadFor r (buildLsn s.writer.file_no (s.writer.buf_offset + n)) := by
  rw [appendPayload_eq hwf, payloadFor, appendHeader]

theorem payloadFor_length {r : MXLogRecord} (lsnv : Nat) (hwf : wfRecord r) :
    (payloadFor r lsnv).length = rawSize r := by
  obtain ⟨-, -, -, -, hids, hdata, -⟩ := hwf
  simp [payloadFor, rawSize, headerBytes_length, idsBytes_length, hids, hdata, sizeOfHeader]
  ring

theorem payloadFor_reads (r : MXLogRecord) (lsnv : Nat) (hwf : wfRecord r) :
    (payloadFor r lsnv).take 8 = leBytes 8 lsnv ∧
    ((payloadFor r lsnv).drop 8).take 1 = leBytes 1 r.type.toByte ∧
    ((payloadFor r lsnv).drop 9).take 2 = leBytes 2 (r.table_id.length % U16) ∧
    ((payloadFor r lsnv).drop 11).take 2 = leBytes 2 (r.partition_tag.length % U16) ∧
    ((payloadFor r lsnv).drop 13).take 4 = leBytes 4 (r.length % U32) ∧
    ((payloadFor r lsnv).drop 17).take 4 = leBytes 4 (r.data_size % U32) ∧
    ((payloadFor r lsnv).drop 21).take r.table_id.length = r.table_id ∧
    ((payloadFor r lsnv).drop (21 + r.table_id.length)).take r.partition_tag.length
      = r.partition_tag ∧
    (payloadFor r lsnv).drop (21 + r.table_id.length + r.partition_tag.length)
      = idsBytes r.ids ++ r.data ∧
    ((payloadFor r lsnv).drop
        (21 + r.table_id.length + r.partition_tag.length + r.length * 8)).take r.data_size
      = r.data := by
  obtain ⟨-, -, -, -, hids, hdata, -⟩ := hwf
  have hp : payloadFor r lsnv
      = leBytes 8 lsnv ++ (leBytes 1 r.type.toByte ++ (leBytes 2 (r.table_id.length % U16)
        ++ (leBytes 2 (r.partition_tag.length % U16) ++ (leBytes 4 (r.length % U32)
        ++ (leBytes 4 (r.data_size % U32) ++ (r.table_id ++ (r.partition_tag
        ++ (idsBytes r.ids ++ r.data)))))))) := by
    simp [payloadFor, headerBytes, List.append_assoc]
  have d8 : (payloadFor r lsnv).drop 8
      = leBytes 1 r.type.toByte ++ (leBytes 2 (r.table_id.length % U16)
        ++ (leBytes 2 (r.partition_tag.length % U16) ++ (leBytes 4 (r.length % U32)
        ++ (leBytes 4 (r.data_size % U32) ++ (r.table_id ++ (r.partition_tag
        ++ (idsBytes r.ids ++ r.data))))))) := by
    rw [hp]; exact drop_cat 8 (leBytes_length 8 lsnv)
  have d9 : (payloadFor r lsnv).drop 9
      = leBytes 2 (r.table_id.length % U16)
        ++ (leBytes 2 (r.partition_tag.length % U16) ++ (leBytes 4 (r.length % U32)
        ++ (leBytes 4 (r.data_size % U32) ++ (r.table_id ++ (r.partition_tag
        ++ (idsBytes r.ids ++ r.data)))))) := by
    rw [show (9 : Nat) = 8 + 1 from rfl, ← List.drop_drop, d8]
    exact drop_cat 1 (leBytes_length 1 _)
  have d11 : (payloadFor r lsnv).drop 11
      = leBytes 2 (r.partition_tag.length % U16) ++ (leBytes 4 (r.length % U32)
        ++ (leBytes 4 (r.data_size % U32) ++ (r.table_id ++ (r.partition_tag
        ++ (idsBytes r.ids ++ r.data))))) := by
    rw [show (11 : Nat) = 9 + 2 from rfl, ← List.drop_drop, d9]
    exact drop_cat 2 (leBytes_length 2 _)
  have d13 : (payloadFor r lsnv).drop 13
      = leBytes 4 (r.length % U32) ++ (leBytes 4 (r.data_size % U32)
        ++ (r.table_id ++ (r.partition_tag ++ (idsBytes r.ids ++ r.data)))) := by
    rw [show (13 : Nat) = 11 + 2 from rfl, ← List.drop_drop, d11]
    exact drop_cat 2 (leBytes_length 2 _)
  have d17 : (payloadFor r lsnv).drop 17
      = leBytes 4 (r.data_size % U32)
        ++ (r.table_id ++ (r.partition_tag ++ (idsBytes r.ids ++ r.data))) := by
    rw [show (17 : Nat) = 13 + 4 from rfl, ← List.drop_drop, d13]
    exact drop_cat 4 (leBytes_length 4 _)
  have d21 : (payloadFor r lsnv).drop 21
      = r.table_id ++ (r.partition_tag ++ (idsBytes r.ids ++ r.data)) := by
    rw [show (21 : Nat) = 17 + 4 from rfl, ← List.drop_drop, d17]
    exact drop_cat 4 (leBytes_length 4 _)
  have dtl : (payloadFor r lsnv).drop (21 + r.table_id.length)
      = r.partition_tag ++ (idsBytes r.ids ++ r.data) := by
    rw [← List.drop_drop, d21]
    exact drop_cat r.table_id.length rfl
  have dpl : (payloadFor r lsnv).drop (21 + r.table_id.length + r.partition_tag.length)
      = idsBytes r.ids ++ r.data := by
    rw [← List.drop_drop, dtl]
    exact drop_cat r.partition_tag.length rfl
  have dvn : (payloadFor r lsnv).drop
      (21 + r.table_id.length + r.partition_tag.length + r.length * 8) = r.data := by
    rw [← List.drop_drop, dpl]
    refine drop_cat (r.length * 8) ?_
    rw [idsBytes_length, hids]; ring
  refine ⟨?_, ?_, ?_, ?_, ?_, ?_, ?_, ?_, dpl, ?_⟩
  · rw [hp]; exact take_cat 8 (leBytes_length 8 lsnv)
  · rw [d8]; exact take_cat 1 (leBytes_length 1 _)
  · rw [d9]; exact take_cat 2 (leBytes_length 2 _)
  · rw [d11]; exact take_cat 2 (leBytes_length 2 _)
  · rw [d13]; exact take_cat 4 (leBytes_length 4 _)
  · rw [d17]; exact take_cat 4 (leBytes_length 4 _)
  · rw [d21]; exact take_cat r.table_id.length rfl
  · rw [dtl]; exact take_cat r.partition_tag.length rfl
  · rw [dvn]; exact List.take_of_length_le (le_of_eq hdata)

/-! ### Slab access lemmas -/

theorem getSlab_setSlab (s : WalState) (idx : Nat) (b : List Nat) :
    getSlab (setSlab s idx b) idx = b := by
  unfold getSlab setSlab
  by_cases h : idx = 0 <;> simp [h]

theorem getSlab_length {s : WalState} (idx : Nat)
    (h0 : s.buf0.length = s.mxlog_buffer_size) (h1 : s.buf1.length = s.mxlog_buffer_size) :
    (getSlab s idx).length = s.mxlog_buffer_size := by
  unfold getSlab
  split <;> assumption

theorem toByte_lt (t : MXLogType) : t.toByte < 256 := by
  cases t <;> decide

/-! ### Deserialization read-back -/

theorem nextDeserialize_readback
    (s : WalState) (r0 r : MXLogRecord) (slab0 : List Nat) (lsnv : Nat)
    (hwf : wfRecord r) (hlsn : lsnv < 2 ^ 64)
    (hoff : s.reader.buf_offset ≤ slab0.length)
    (hslab : getSlab s s.reader.buf_idx
      = writeAt slab0 s.reader.buf_offset (payloadFor r lsnv)) :
    nextDeserialize s r0
      = (.WAL_SUCCESS,
         { s with reader := { s.reader with buf_offset := lsnv % U32 } },
         { r0 with type := r.type, lsn := lsnv, length := r.length,
                   data_size := r.data_size, table_id := r.table_id,
                   partition_tag := r.partition_tag, ids := r.ids, data := r.data }) := by
  obtain ⟨htl, hptl, hlen32, hds32, hids, hdata, hidsb⟩ := hwf
  have hwf' : wfRecord r := ⟨htl, hptl, hlen32, hds32, hids, hdata, hidsb⟩
  obtain ⟨p1, p2, p3, p4, p5, p6, p7, p8, p9, p10⟩ := payloadFor_reads r lsnv hwf'
  have hplen : (payloadFor r lsnv).length = rawSize r := payloadFor_length lsnv hwf'
  have e_lsn : leVal (readBytes (getSlab s s.reader.buf_idx) s.reader.buf_offset 8) = lsnv := by
    rw [hslab]
    have h := readBytes_writeAt (payloadFor r lsnv) 0 8 hoff
      (by rw [hplen]; unfold rawSize sizeOfHeader; omega)
    rw [Nat.add_zero] at h
    rw [h, List.drop_zero, p1,
      leVal_leBytes_of_lt (by rw [show (256 : Nat) ^ 8 = 2 ^ 64 from by norm_num]; exact hlsn)]
  have e_type : leVal (readBytes (getSlab s s.reader.buf_idx) (s.reader.buf_offset + 8) 1)
      = r.type.toByte := by
    rw [hslab]
    have h := readBytes_writeAt (payloadFor r lsnv) 8 1 hoff
      (by rw [hplen]; unfold rawSize sizeOfHeader; omega)
    rw [h, p2, leVal_leBytes_of_lt (by simpa using toByte_lt r.type)]
  have e_tid : leVal (readBytes (getSlab s s.reader.buf_idx) (s.reader.buf_offset + 9) 2)
      = r.table_id.length := by
    rw [hslab]
    have h := readBytes_writeAt (payloadFor r lsnv) 9 2 hoff
      (by rw [hplen]; unfold rawSize sizeOfHeader; omega)
    rw [h, p3, leVal_leBytes]
    unfold U16 at *
    omega
  have e_ptag : leVal (readBytes (getSlab s s.reader.buf_idx) (s.reader.buf_offset + 11) 2)
      = r.partition_tag.length := by
    rw [hslab]
    have h := readBytes_writeAt (payloadFor r lsnv) 11 2 hoff
      (by rw [hplen]; unfold rawSize sizeOfHeader; omega)
    rw [h, p4, leVal_leBytes]
    unfold U16 at *
    omega
  have e_vnum : leVal (readBytes (getSlab s s.reader.buf_idx) (s.reader.buf_offset + 13) 4)
      = r.length := by
    rw [hslab]
    have h := readBytes_writeAt (payloadFor r lsnv) 13 4 hoff
      (by rw [hplen]; unfold rawSize sizeOfHeader; omega)
    rw [h, p5, leVal_leBytes]
    unfold U32 at *
    omega
  have e_dsize : leVal (readBytes (getSlab s s.reader.buf_idx) (s.reader.buf_offset + 17) 4)
      = r.data_size := by
    rw [hslab]
    have h := readBytes_writeAt (payloadFor r lsnv) 17 4 hoff
      (by rw [hplen]; unfold rawSize sizeOfHeader; omega)
    rw [h, p6, leVal_leBytes]
    unfold U32 at *
    omega
  have e_tidb : (if r.table_id.length ≠ 0 then
      readBytes (getSlab s s.reader.buf_idx) (s.reader.buf_offset + 21) r.table_id.length
      else []) = r.table_id := by
    by_cases h0 : r.table_id.length = 0
    · simp [h0, List.length_eq_zero.mp h0]
    · rw [if_pos h0, hslab]
      have h := readBytes_writeAt (payloadFor r lsnv) 21 r.table_id.length hoff
        (by rw [hplen]; unfold rawSize sizeOfHeader; omega)
      rw [h, p7]
  have e_ptagb : (if r.partition_tag.length ≠ 0 then
      readBytes (getSlab s s.reader.buf_idx) (s.reader.buf_offset + 21 + r.table_id.length)
        r.partition_tag.length
      else []) = r.partition_tag := by
    by_cases h0 : r.partition_tag.length = 0
    · simp [h0, List.length_eq_zero.mp h0]
    · rw [if_pos h0,
        show s.reader.buf_offset + 21 + r.table_id.length
          = s.reader.buf_offset + (21 + r.table_id.length) from by omega, hslab]
      have h := readBytes_writeAt (payloadFor r lsnv) (21 + r.table_id.length)
        r.partition_tag.length hoff (by rw [hplen]; unfold rawSize sizeOfHeader; omega)
      rw [h, p8]
  have e_idsb : (if r.length ≠ 0 then
      decodeIds r.length ((getSlab s s.reader.buf_idx).drop
        (s.reader.buf_offset + 21 + r.table_id.length + r.partition_tag.length))
      else []) = r.ids := by
    by_cases h0 : r.length = 0
    · have : r.ids = [] := List.length_eq_zero.mp (by omega)
      simp [h0, this]
    · rw [if_pos h0,
        show s.reader.buf_offset + 21 + r.table_id.length + r.partition_tag.length
          = s.reader.buf_offset + (21 + r.table_id.length + r.partition_tag.length)
          from by omega, hslab]
      have h := drop_writeAt (payloadFor r lsnv)
        (21 + r.table_id.length + r.partition_tag.length) hoff
        (by rw [hplen]; unfold rawSize sizeOfHeader; omega)
      rw [h, p9, List.append_assoc, ← hids]
      exact decodeIds_idsBytes r.ids _ hidsb
  have e_datab : (if r.data_size ≠ 0 then
      readBytes (getSlab s s.reader.buf_idx)
        (s.reader.buf_offset + 21 + r.table_id.length + r.partition_tag.length + r.length * 8)
        r.data_size
      else []) = r.data := by
    by_cases h0 : r.data_size = 0
    · have : r.data = [] := List.length_eq_zero.mp (by omega)
      simp [h0, this]
    · rw [if_pos h0,
        show s.reader.buf_offset + 21 + r.table_id.length + r.partition_tag.length + r.length * 8
          = s.reader.buf_offset
            + (21 + r.table_id.length + r.partition_tag.length + r.length * 8)
          from by omega, hslab]
      have h := readBytes_writeAt (payloadFor r lsnv)
        (21 + r.table_id.length + r.partition_tag.length + r.length * 8) r.data_size hoff
        (by rw [hplen]; unfold rawSize sizeOfHeader; omega)
      rw [h, p10]
  simp only [nextDeserialize, e_lsn, e_type, e_tid, e_ptag, e_vnum, e_dsize,
    e_tidb, e_ptagb, e_idsb, e_datab, MXLogType.ofByte_toByte]

/-! ### State projection lemmas -/

@[simp] theorem setSlab_reader (s : WalState) (idx : Nat) (b : List Nat) :
    (setSlab s idx b).reader = s.reader := by
  unfold setSlab; split <;> rfl

@[simp] theorem setSlab_writer (s : WalState) (idx : Nat) (b : List Nat) :
    (setSlab s idx b).writer = s.writer := by
  unfold setSlab; split <;> rfl

@[simp] theorem setSlab_buffer_size (s : WalState) (idx : Nat) (b : List Nat) :
    (setSlab s idx b).mxlog_buffer_size = s.mxlog_buffer_size := by
  unfold setSlab; split <;> rfl

@[simp] theorem setSlab_fh_file_no (s : WalState) (idx : Nat) (b : List Nat) :
    (setSlab s idx b).fh_file_no = s.fh_file_no := by
  unfold setSlab; split <;> rfl

@[simp] theorem setSlab_disk (s : WalState) (idx : Nat) (b : List Nat) :
    (setSlab s idx b).disk = s.disk := by
  unfold setSlab; split <;> rfl

@[simp] theorem diskWrite_reader (s : WalState) (b : List Nat) :
    (diskWrite s b).reader = s.reader := rfl

@[simp] theorem diskWrite_writer (s : WalState) (b : List Nat) :
    (diskWrite s b).writer = s.writer := rfl

@[simp] theorem diskWrite_buffer_size (s : WalState) (b : List Nat) :
    (diskWrite s b).mxlog_buffer_size = s.mxlog_buffer_size := rfl

@[simp] theorem getSlab_diskWrite (s : WalState) (b : List Nat) (idx : Nat) :
    getSlab (diskWrite s b) idx = getSlab s idx := rfl

/-! ### Append unfolding lemmas -/

theorem append_no_roll (env : WalEnv) (s : WalState) (r : MXLogRecord)
    (h : ¬ surplusSpace s < recordSize r) :
    append env s r = appendBody env s r (recordSize r) := by
  rw [append, if_neg h]

theorem append_roll (env : WalEnv) (s : WalState) (r : MXLogRecord)
    (h : surplusSpace s < recordSize r) (hr : env.reborn_ok = true) :
    append env s r
      = appendBody env (rebornFH (rolloverCursors s) (rolloverCursors s).writer.file_no) r
          (recordSize r) := by
  rw [append]
  simp only [if_pos h, hr, if_pos]

theorem append_roll_fail (env : WalEnv) (s : WalState) (r : MXLogRecord)
    (h : surplusSpace s < recordSize r) (hr : env.reborn_ok = false) :
    append env s r = (.WAL_FILE_ERROR, rolloverCursors s, r) := by
  rw [append]
  simp only [if_pos h, hr]
  rfl

theorem appendBody_ok (env : WalEnv) (s : WalState) (r : MXLogRecord) (n : Nat)
    (hw : env.write_ok = true) :
    appendBody env s r n
      = (.WAL_SUCCESS,
         { diskWrite
             (setSlab s s.writer.buf_idx
               (writeAt (getSlab s s.writer.buf_idx) s.writer.buf_offset
                 (appendPayload s r n)))
             (readBytes
               (writeAt (getSlab s s.writer.buf_idx) s.writer.buf_offset
                 (appendPayload s r n))
               s.writer.buf_offset n) with
           writer := { s.writer with
             buf_offset := (s.writer.buf_offset + (appendPayload s r n).length) % U32 } },
         { r with lsn := (appendHeader s r n).mxl_lsn }) := by
  rw [appendBody]
  simp only [hw, if_pos]

theorem appendBody_fail (env : WalEnv) (s : WalState) (r : MXLogRecord) (n : Nat)
    (hw : env.write_ok = false) :
    appendBody env s r n
      = (.WAL_FILE_ERROR,
         setSlab s s.writer.buf_idx
           (writeAt (getSlab s s.writer.buf_idx) s.writer.buf_offset (appendPayload s r n)),
         r) := by
  rw [appendBody]
  simp only [hw]
  rfl

/-! ### Next unfolding lemmas -/

theorem next_end (env : WalEnv) (s : WalState) (lal : Nat) (r0 : MXLogRecord)
    (h : lal ≤ getReadLsn s) :
    next env s lal r0 = (.WAL_SUCCESS, s, { r0 with type := MXLogType.None }) := by
  rw [next, if_pos h]

theorem next_no_advance (env : WalEnv) (s : WalState) (lal : Nat) (r0 : MXLogRecord)
    (hlt : getReadLsn s < lal)
    (hf : s.reader.file_no = s.writer.file_no) :
    next env s lal r0 = nextDeserialize s { r0 with type := MXLogType.None } := by
  have hnadv : ¬(s.reader.file_no ≠ s.writer.file_no
      ∧ s.reader.buf_offset = s.reader.max_offset) := fun h => h.1 hf
  simp only [next, if_neg (show ¬ lal ≤ getReadLsn s by omega), if_neg hnadv,
    if_neg (show ¬((s.reader.file_no ≠ s.writer.file_no
      ∧ s.reader.buf_offset = s.reader.max_offset)
      ∧ s.reader.file_no ≠ s.writer.file_no) from fun h => hnadv h.1)]

theorem next_advance_adopt (env : WalEnv) (s : WalState) (lal : Nat) (r0 : MXLogRecord)
    (hlt : getReadLsn s < lal)
    (hne : s.reader.file_no ≠ s.writer.file_no)
    (hmax : s.reader.buf_offset = s.reader.max_offset)
    (hcatch : (s.reader.file_no + 1) % U32 = s.writer.file_no) :
    next env s lal r0
      = nextDeserialize
          { s with reader := { s.reader with file_no := (s.reader.file_no + 1) % U32,
                                             buf_offset := 0,
                                             buf_idx := s.writer.buf_idx } }
          { r0 with type := MXLogType.None } := by
  have hadv : s.reader.file_no ≠ s.writer.file_no
      ∧ s.reader.buf_offset = s.reader.max_offset := ⟨hne, hmax⟩
  simp only [next, if_neg (show ¬ lal ≤ getReadLsn s by omega), if_pos hadv,
    if_pos hcatch]
  rw [if_neg]
  intro h
  exact h.2 hcatch

/-! ### Further projection and LSN order lemmas -/

@[simp] theorem getSlab_writer_update (x : WalState) (w : MXLogBufferHandler) (idx : Nat) :
    getSlab { x with writer := w } idx = getSlab x idx := rfl

@[simp] theorem getSlab_reader_update (x : WalState) (w : MXLogBufferHandler) (idx : Nat) :
    getSlab { x with reader := w } idx = getSlab x idx := rfl

@[simp] theorem getSlab_rebornFH (x : WalState) (m idx : Nat) :
    getSlab (rebornFH x m) idx = getSlab x idx := rfl

@[simp] theorem rebornFH_writer (x : WalState) (m : Nat) : (rebornFH x m).writer = x.writer := rfl

@[simp] theorem rebornFH_reader (x : WalState) (m : Nat) : (rebornFH x m).reader = x.reader := rfl

@[simp] theorem rebornFH_buffer_size (x : WalState) (m : Nat) :
    (rebornFH x m).mxlog_buffer_size = x.mxlog_buffer_size := rfl

theorem buildLsn_lt_u64 (f o : Nat) : buildLsn f o < 2 ^ 64 := by
  unfold buildLsn U32
  have h1 : f % 4294967296 < 4294967296 := Nat.mod_lt f (by norm_num)
  have h2 : o % 4294967296 < 4294967296 := Nat.mod_lt o (by norm_num)
  nlinarith

theorem buildLsn_lt_offset {f o1 o2 : Nat} (h1 : o1 < o2) (h2 : o2 < U32) :
    buildLsn f o1 < buildLsn f o2 := by
  unfold buildLsn U32 at *
  omega

theorem buildLsn_lt_file {f1 f2 o1 o2 : Nat} (hf : f1 < f2) (hf2 : f2 < U32) :
    buildLsn f1 o1 < buildLsn f2 o2 := by
  unfold buildLsn U32 at *
  have h1 : o1 % 4294967296 < 4294967296 := Nat.mod_lt o1 (by norm_num)
  omega


theorem next_no_advance_readback (env : WalEnv) (s : WalState) (lal : Nat)
    (r0 r : MXLogRecord) (slab0 : List Nat) (lsnv : Nat)
    (hlt : getReadLsn s < lal)
    (hf : s.reader.file_no = s.writer.file_no)
    (hwf : wfRecord r) (hlsn : lsnv < 2 ^ 64)
    (hoff : s.reader.buf_offset ≤ slab0.length)
    (hslab : getSlab s s.reader.buf_idx
      = writeAt slab0 s.reader.buf_offset (payloadFor r lsnv)) :
    next env s lal r0
      = (.WAL_SUCCESS,
         { s with reader := { s.reader with buf_offset := lsnv % U32 } },
         { r0 with type := r.type, lsn := lsnv, length := r.length,
                   data_size := r.data_size, table_id := r.table_id,
                   partition_tag := r.partition_tag, ids := r.ids, data := r.data }) := by
  rw [next_no_advance env s lal r0 hlt hf,
    nextDeserialize_readback s _ r slab0 lsnv hwf hlsn hoff hslab]

theorem next_advance_adopt_readback (env : WalEnv) (s : WalState) (lal : Nat)
    (r0 r : MXLogRecord) (slab0 : List Nat) (lsnv : Nat)
    (hlt : getReadLsn s < lal)
    (hne : s.reader.file_no ≠ s.writer.file_no)
    (hmax : s.reader.buf_offset = s.reader.max_offset)
    (hcatch : (s.reader.file_no + 1) % U32 = s.writer.file_no)
    (hwf : wfRecord r) (hlsn : lsnv < 2 ^ 64)
    (hslab : getSlab s s.writer.buf_idx = writeAt slab0 0 (payloadFor r lsnv)) :
    next env s lal r0
      = (.WAL_SUCCESS,
         { s with reader := { s.reader with
                              file_no := (s.reader.file_no + 1) % U32,
                              buf_offset := lsnv % U32,
                              buf_idx := s.writer.buf_idx } },
         { r0 with type := r.type, lsn := lsnv, length := r.length,
                   data_size := r.data_size, table_id := r.table_id,
                   partition_tag := r.partition_tag, ids := r.ids, data := r.data }) := by
  rw [next_advance_adopt env s lal r0 hlt hne hmax hcatch,
    nextDeserialize_readback _ _ r slab0 lsnv hwf hlsn (Nat.zero_le _) hslab]

theorem rolloverCursors_shared (s : WalState) (h : s.writer.buf_idx = s.reader.buf_idx) :
    rolloverCursors s
      = { s with
          reader := { s.reader with max_offset := s.writer.buf_offset },
          writer := { s.writer with
                      buf_idx := s.writer.buf_idx ^^^ 1,
                      file_no := (s.writer.file_no + 1) % U32,
                      buf_offset := 0 } } := by
  unfold rolloverCursors
  rw [if_pos h]

theorem rolloverCursors_split (s : WalState) (h : ¬ s.writer.buf_idx = s.reader.buf_idx) :
    rolloverCursors s
      = { s with
          writer := { s.writer with
                      file_no := (s.writer.file_no + 1) % U32,
                      buf_offset := 0 } } := by
  unfold rolloverCursors
  rw [if_neg h]

/-- C1: Round-trip.  For every record `r` with consistent fields
(`collection_id`/`partition_tag` at most 65535 bytes, `ids` holding
`r.length` 64-bit IDs, `data` holding `r.data_size` bytes) and
`RecordSize(r)` at most `buffer_size`, a successful `Append(r)` from a state
whose reader cursor coincides with the writer cursor, followed by
`Next(last_applied_lsn, r')` with `last_applied_lsn` at least the LSN
`Append` returned, yields `r'` equal to `r` in `type`, `length`,
`data_size`, `collection_id` bytes, `partition_tag` bytes, `ids` bytes and
`data` bytes. -/
theorem c1_round_trip
    (s : WalState) (r r0 : MXLogRecord) (env2 : WalEnv) (lal : Nat)
    (hwfS : wfState s) (hwf : wfRecord r)
    (hsize : rawSize r ≤ s.mxlog_buffer_size)
    (hfn : s.writer.file_no + 1 < U32)
    (hsync_f : s.reader.file_no = s.writer.file_no)
    (hsync_i : s.reader.buf_idx = s.writer.buf_idx)
    (hsync_o : s.reader.buf_offset = s.writer.buf_offset)
    (hlal : (append envOk s r).2.2.lsn ≤ lal) :
    (append envOk s r).1 = ErrorCode.WAL_SUCCESS ∧
    (next env2 (append envOk s r).2.1 lal r0).1 = ErrorCode.WAL_SUCCESS ∧
    (next env2 (append envOk s r).2.1 lal r0).2.2.type = r.type ∧
    (next env2 (append envOk s r).2.1 lal r0).2.2.length = r.length ∧
    (next env2 (append envOk s r).2.1 lal r0).2.2.data_size = r.data_size ∧
    (next env2 (append envOk s r).2.1 lal r0).2.2.table_id = r.table_id ∧
    (next env2 (append envOk s r).2.1 lal r0).2.2.partition_tag = r.partition_tag ∧
    (next env2 (append envOk s r).2.1 lal r0).2.2.ids = r.ids ∧
    (next env2 (append envOk s r).2.1 lal r0).2.2.data = r.data := by
  obtain ⟨hb0, hb1, hB, hoffB, hfw, hfr, hwi2, hri2, hro32, hrm32⟩ := hwfS
  have hraw32 : rawSize r < U32 := lt_of_le_of_lt hsize hB
  have hnsz : recordSize r = rawSize r := recordSize_eq_rawSize hwf hraw32
  have hpos : 0 < recordSize r := by
    rw [hnsz]; unfold rawSize sizeOfHeader; omega
  obtain ⟨B, b0, b1, ⟨wmax, wf, wo, wi⟩, ⟨rmax, rf, ro, ri⟩, fhn, fhm, fho, dk⟩ := s
  dsimp only at hsync_f hsync_i hsync_o hb0 hb1 hB hoffB hfw hfr hwi2 hri2 hro32 hrm32 hsize hfn hlal ⊢
  subst hsync_f
  subst hsync_i
  subst hsync_o
  by_cases hroll : surplusSpace
      ⟨B, b0, b1, ⟨wmax, rf, ro, ri⟩, ⟨rmax, rf, ro, ri⟩, fhn, fhm, fho, dk⟩ < recordSize r
  · -- rollover
    have hmod : (rf + 1) % U32 = rf + 1 := Nat.mod_eq_of_lt hfn
    rcases (by omega : ri = 0 ∨ ri = 1) with rfl | rfl
    · have hrc : rolloverCursors ⟨B, b0, b1, ⟨wmax, rf, ro, 0⟩, ⟨rmax, rf, ro, 0⟩, fhn, fhm, fho, dk⟩
          = ⟨B, b0, b1, ⟨wmax, (rf + 1) % U32, 0, 1⟩, ⟨ro, rf, ro, 0⟩, fhn, fhm, fho, dk⟩ := by
        rw [rolloverCursors_shared _ rfl]
        norm_num
      have happ := append_roll envOk ⟨B, b0, b1, ⟨wmax, rf, ro, 0⟩, ⟨rmax, rf, ro, 0⟩, fhn, fhm, fho, dk⟩ r hroll rfl
      rw [hrc] at happ
      dsimp only at happ
      rw [happ] at hlal ⊢
      have hlal' : buildLsn ((rf + 1) % U32) (0 + recordSize r) ≤ lal := hlal
      refine ⟨rfl, ?_⟩
      have hlt : getReadLsn (appendBody envOk
          (rebornFH ⟨B, b0, b1, ⟨wmax, (rf + 1) % U32, 0, 1⟩, ⟨ro, rf, ro, 0⟩, fhn, fhm, fho, dk⟩ ((rf + 1) % U32))
          r (recordSize r)).2.1 < lal := by
        refine lt_of_lt_of_le ?_ hlal'
        show buildLsn rf ro < buildLsn ((rf + 1) % U32) (0 + recordSize r)
        rw [hmod]
        exact buildLsn_lt_file (by omega) hfn
      rw [next_advance_adopt_readback env2 _ lal r0 r b1
          (buildLsn ((rf + 1) % U32) (0 + recordSize r)) hlt
          (by show rf ≠ (rf + 1) % U32
              rw [hmod]; omega)
          rfl rfl hwf (buildLsn_lt_u64 _ _)
          (by show writeAt b1 0
                (appendPayload (rebornFH ⟨B, b0, b1, ⟨wmax, (rf + 1) % U32, 0, 1⟩, ⟨ro, rf, ro, 0⟩, fhn, fhm, fho, dk⟩ ((rf + 1) % U32)) r (recordSize r))
              = writeAt b1 0
                  (payloadFor r (buildLsn ((rf + 1) % U32) (0 + recordSize r)))
              rw [appendPayload_eq_payloadFor hwf]
              rfl)]
      exact ⟨rfl, rfl, rfl, rfl, rfl, rfl, rfl, rfl⟩
    · have hrc : rolloverCursors ⟨B, b0, b1, ⟨wmax, rf, ro, 1⟩, ⟨rmax, rf, ro, 1⟩, fhn, fhm, fho, dk⟩
          = ⟨B, b0, b1, ⟨wmax, (rf + 1) % U32, 0, 0⟩, ⟨ro, rf, ro, 1⟩, fhn, fhm, fho, dk⟩ := by
        rw [rolloverCursors_shared _ rfl]
        norm_num
      have happ := append_roll envOk ⟨B, b0, b1, ⟨wmax, rf, ro, 1⟩, ⟨rmax, rf, ro, 1⟩, fhn, fhm, fho, dk⟩ r hroll rfl
      rw [hrc] at happ
      dsimp only at happ
      rw [happ] at hlal ⊢
      have hlal' : buildLsn ((rf + 1) % U32) (0 + recordSize r) ≤ lal := hlal
      refine ⟨rfl, ?_⟩
      have hlt : getReadLsn (appendBody envOk
          (rebornFH ⟨B, b0, b1, ⟨wmax, (rf + 1) % U32, 0, 0⟩, ⟨ro, rf, ro, 1⟩, fhn, fhm, fho, dk⟩ ((rf + 1) % U32))
          r (recordSize r)).2.1 < lal := by
        refine lt_of_lt_of_le ?_ hlal'
        show buildLsn rf ro < buildLsn ((rf + 1) % U32) (0 + recordSize r)
        rw [hmod]
        exact buildLsn_lt_file (by omega) hfn
      rw [next_advance_adopt_readback env2 _ lal r0 r b0
          (buildLsn ((rf + 1) % U32) (0 + recordSize r)) hlt
          (by show rf ≠ (rf + 1) % U32
              rw [hmod]; omega)
          rfl rfl hwf (buildLsn_lt_u64 _ _)
          (by show writeAt b0 0
                (appendPayload (rebornFH ⟨B, b0, b1, ⟨wmax, (rf + 1) % U32, 0, 0⟩, ⟨ro, rf, ro, 1⟩, fhn, fhm, fho, dk⟩ ((rf + 1) % U32)) r (recordSize r))
              = writeAt b0 0
                  (payloadFor r (buildLsn ((rf + 1) % U32) (0 + recordSize r)))
              rw [appendPayload_eq_payloadFor hwf]
              rfl)]
      exact ⟨rfl, rfl, rfl, rfl, rfl, rfl, rfl, rfl⟩
  · -- enough surplus space, no rollover
    rcases (by omega : ri = 0 ∨ ri = 1) with rfl | rfl
    · have happ : append envOk ⟨B, b0, b1, ⟨wmax, rf, ro, 0⟩, ⟨rmax, rf, ro, 0⟩, fhn, fhm, fho, dk⟩ r
          = appendBody envOk ⟨B, b0, b1, ⟨wmax, rf, ro, 0⟩, ⟨rmax, rf, ro, 0⟩, fhn, fhm, fho, dk⟩ r (recordSize r) :=
        append_no_roll _ _ _ hroll
      have hfree : ro + recordSize r ≤ B := by
        have hsur : surplusSpace ⟨B, b0, b1, ⟨wmax, rf, ro, 0⟩, ⟨rmax, rf, ro, 0⟩, fhn, fhm, fho, dk⟩ = B - ro := u32sub_exact hoffB hB
        rw [hsur] at hroll
        omega
      rw [happ] at hlal ⊢
      have hlal' : buildLsn rf (ro + recordSize r) ≤ lal := hlal
      refine ⟨rfl, ?_⟩
      have hlt : getReadLsn
          (appendBody envOk ⟨B, b0, b1, ⟨wmax, rf, ro, 0⟩, ⟨rmax, rf, ro, 0⟩, fhn, fhm, fho, dk⟩ r (recordSize r)).2.1 < lal := by
        refine lt_of_lt_of_le ?_ hlal'
        show buildLsn rf ro < buildLsn rf (ro + recordSize r)
        exact buildLsn_lt_offset (by omega) (by unfold U32 at *; omega)
      rw [next_no_advance_readback env2 _ lal r0 r b0
          (buildLsn rf (ro + recordSize r)) hlt rfl hwf (buildLsn_lt_u64 _ _)
          (by show ro ≤ b0.length
              omega)
          (by show writeAt b0 ro (appendPayload ⟨B, b0, b1, ⟨wmax, rf, ro, 0⟩, ⟨rmax, rf, ro, 0⟩, fhn, fhm, fho, dk⟩ r (recordSize r))
              = writeAt b0 ro (payloadFor r (buildLsn rf (ro + recordSize r)))
              rw [appendPayload_eq_payloadFor hwf])]
      exact ⟨rfl, rfl, rfl, rfl, rfl, rfl, rfl, rfl⟩
    · have happ : append envOk ⟨B, b0, b1, ⟨wmax, rf, ro, 1⟩, ⟨rmax, rf, ro, 1⟩, fhn, fhm, fho, dk⟩ r
          = appendBody envOk ⟨B, b0, b1, ⟨wmax, rf, ro, 1⟩, ⟨rmax, rf, ro, 1⟩, fhn, fhm, fho, dk⟩ r (recordSize r) :=
        append_no_roll _ _ _ hroll
      have hfree : ro + recordSize r ≤ B := by
        have hsur : surplusSpace ⟨B, b0, b1, ⟨wmax, rf, ro, 1⟩, ⟨rmax, rf, ro, 1⟩, fhn, fhm, fho, dk⟩ = B - ro := u32sub_exact hoffB hB
        rw [hsur] at hroll
        omega
      rw [happ] at hlal ⊢
      have hlal' : buildLsn rf (ro + recordSize r) ≤ lal := hlal
      refine ⟨rfl, ?_⟩
      have hlt : getReadLsn
          (appendBody envOk ⟨B, b0, b1, ⟨wmax, rf, ro, 1⟩, ⟨rmax, rf, ro, 1⟩, fhn, fhm, fho, dk⟩ r (recordSize r)).2.1 < lal := by
        refine lt_of_lt_of_le ?_ hlal'
        show buildLsn rf ro < buildLsn rf (ro + recordSize r)
        exact buildLsn_lt_offset (by omega) (by unfold U32 at *; omega)
      rw [next_no_advance_readback env2 _ lal r0 r b1
          (buildLsn rf (ro + recordSize r)) hlt rfl hwf (buildLsn_lt_u64 _ _)
          (by show ro ≤ b1.length
              omega)
          (by show writeAt b1 ro (appendPayload ⟨B, b0, b1, ⟨wmax, rf, ro, 1⟩, ⟨rmax, rf, ro, 1⟩, fhn, fhm, fho, dk⟩ r (recordSize r))
              = writeAt b1 ro (payloadFor r (buildLsn rf (ro + recordSize r)))
              rw [appendPayload_eq_payloadFor hwf])]
      exact ⟨rfl, rfl, rfl, rfl, rfl, rfl, rfl, rfl⟩

/-! ### Concrete states used by witnesses and counterexamples -/

/-- A small initialized buffer state: 64-byte slabs, both cursors at file 0
offset 0, active file `0.wal` empty on disk. -/
def c1state : WalState :=
  ⟨64, List.replicate 64 0, List.replicate 64 0, ⟨0, 0, 0, 0⟩, ⟨0, 0, 0, 0⟩, 0, .W, false,
    fun n => if n = 0 then some [] else none⟩

/-- A small consistent record: 2-byte collection id, 1-byte partition tag,
one 64-bit ID and two data bytes (`rawSize` 34). -/
def c1rec : MXLogRecord := ⟨.InsertEntity, 0, [1, 2], [3], 1, [5], 2, [7, 8]⟩

/-- Witness for C1: the round-trip theorem applied to `c1state` and `c1rec`
with `last_applied_lsn = 1000`. -/
theorem c1_round_trip_witness :
    (append envOk c1state c1rec).1 = ErrorCode.WAL_SUCCESS ∧
    (next envOk (append envOk c1state c1rec).2.1 1000 c1rec).1 = ErrorCode.WAL_SUCCESS ∧
    (next envOk (append envOk c1state c1rec).2.1 1000 c1rec).2.2.type = c1rec.type ∧
    (next envOk (append envOk c1state c1rec).2.1 1000 c1rec).2.2.length = c1rec.length ∧
    (next envOk (append envOk c1state c1rec).2.1 1000 c1rec).2.2.data_size = c1rec.data_size ∧
    (next envOk (append envOk c1state c1rec).2.1 1000 c1rec).2.2.table_id = c1rec.table_id ∧
    (next envOk (append envOk c1state c1rec).2.1 1000 c1rec).2.2.partition_tag
      = c1rec.partition_tag ∧
    (next envOk (append envOk c1state c1rec).2.1 1000 c1rec).2.2.ids = c1rec.ids ∧
    (next envOk (append envOk c1state c1rec).2.1 1000 c1rec).2.2.data = c1rec.data :=
  c1_round_trip c1state c1rec c1rec envOk 1000 (by decide) (by decide) (by decide)
    (by decide) rfl rfl rfl (by decide)

/-- C4: End-of-stream bound.  For every `last_applied_lsn`, if
`GetReadLsn() ≥ last_applied_lsn` when `Next` is entered, then `Next`
returns `WAL_SUCCESS` with `record.type == None` and leaves the reader and
writer cursors unchanged; in particular `Next` never returns `WAL_SUCCESS`
with `record.type != None` under that entry condition. -/
theorem c4_end_of_stream (env : WalEnv) (s : WalState) (lal : Nat) (r0 : MXLogRecord)
    (h : lal ≤ getReadLsn s) :
    (next env s lal r0).1 = ErrorCode.WAL_SUCCESS ∧
    (next env s lal r0).2.2.type = MXLogType.None ∧
    (next env s lal r0).2.1.reader = s.reader ∧
    (next env s lal r0).2.1.writer = s.writer := by
  rw [next_end env s lal r0 h]
  exact ⟨rfl, rfl, rfl, rfl⟩

/-- Witness for C4 at `c1state` with `last_applied_lsn = 0`. -/
theorem c4_end_of_stream_witness :
    (next envOk c1state 0 c1rec).1 = ErrorCode.WAL_SUCCESS ∧
    (next envOk c1state 0 c1rec).2.2.type = MXLogType.None ∧
    (next envOk c1state 0 c1rec).2.1.reader = c1state.reader ∧
    (next envOk c1state 0 c1rec).2.1.writer = c1state.writer :=
  c4_end_of_stream envOk c1state 0 c1rec (by decide)

/-! ### appendBody projection lemmas -/

@[simp] theorem setSlab_fh_mode (s : WalState) (idx : Nat) (b : List Nat) :
    (setSlab s idx b).fh_mode = s.fh_mode := by
  unfold setSlab; split <;> rfl

@[simp] theorem setSlab_fh_open (s : WalState) (idx : Nat) (b : List Nat) :
    (setSlab s idx b).fh_open = s.fh_open := by
  unfold setSlab; split <;> rfl

theorem appendBody_fh_file_no (env : WalEnv) (s : WalState) (r : MXLogRecord) (n : Nat) :
    (appendBody env s r n).2.1.fh_file_no = s.fh_file_no := by
  cases hw : env.write_ok
  · rw [appendBody_fail env s r n hw]; simp
  · rw [appendBody_ok env s r n hw]; simp [diskWrite]

theorem appendBody_fh_mode (env : WalEnv) (s : WalState) (r : MXLogRecord) (n : Nat) :
    (appendBody env s r n).2.1.fh_mode = s.fh_mode := by
  cases hw : env.write_ok
  · rw [appendBody_fail env s r n hw]; simp
  · rw [appendBody_ok env s r n hw]; simp [diskWrite]

theorem appendBody_writer_file_no (env : WalEnv) (s : WalState) (r : MXLogRecord) (n : Nat) :
    (appendBody env s r n).2.1.writer.file_no = s.writer.file_no := by
  cases hw : env.write_ok
  · rw [appendBody_fail env s r n hw]; simp
  · rw [appendBody_ok env s r n hw]

theorem appendBody_writer_buf_idx (env : WalEnv) (s : WalState) (r : MXLogRecord) (n : Nat) :
    (appendBody env s r n).2.1.writer.buf_idx = s.writer.buf_idx := by
  cases hw : env.write_ok
  · rw [appendBody_fail env s r n hw]; simp
  · rw [appendBody_ok env s r n hw]

theorem appendBody_reader (env : WalEnv) (s : WalState) (r : MXLogRecord) (n : Nat) :
    (appendBody env s r n).2.1.reader = s.reader := by
  cases hw : env.write_ok
  · rw [appendBody_fail env s r n hw]; simp
  · rw [appendBody_ok env s r n hw]; simp [diskWrite]

/-- C3: Rollover.  When `Append(r)` finds `buffer_size - writer.buf_offset <
RecordSize(r)` it rolls over: if `writer.buf_idx == reader.buf_idx` it first
sets `reader.max_offset` to the old `writer.buf_offset` and flips
`writer.buf_idx` (XOR 1); in every rollover it increments `writer.file_no`
by 1, resets `writer.buf_offset` to 0, and reborns the file handler onto the
new file; if the `ReBorn` fails, `Append` returns `WAL_FILE_ERROR` without
serializing the record (the state is exactly the cursor-rolled state).  If
free space is at least `RecordSize(r)`, no rollover occurs and no cursor
field other than `writer.buf_offset` changes. -/
theorem c3_rollover (env : WalEnv) (s : WalState) (r : MXLogRecord)
    (hfn : s.writer.file_no + 1 < U32) :
    (surplusSpace s < recordSize r →
      ((s.writer.buf_idx = s.reader.buf_idx →
         (rolloverCursors s).reader.max_offset = s.writer.buf_offset ∧
         (rolloverCursors s).writer.buf_idx = s.writer.buf_idx ^^^ 1) ∧
       (s.writer.buf_idx ≠ s.reader.buf_idx →
         (rolloverCursors s).reader = s.reader ∧
         (rolloverCursors s).writer.buf_idx = s.writer.buf_idx) ∧
       (rolloverCursors s).writer.file_no = s.writer.file_no + 1 ∧
       (rolloverCursors s).writer.buf_offset = 0 ∧
       (env.reborn_ok = true →
         (append env s r).2.1.fh_file_no = s.writer.file_no + 1 ∧
         (append env s r).2.1.fh_mode = FileMode.W) ∧
       (env.reborn_ok = false →
         append env s r = (ErrorCode.WAL_FILE_ERROR, rolloverCursors s, r)))) ∧
    (recordSize r ≤ surplusSpace s →
      (append env s r).2.1.writer.file_no = s.writer.file_no ∧
      (append env s r).2.1.writer.buf_idx = s.writer.buf_idx ∧
      (append env s r).2.1.reader = s.reader) := by
  have hmod : (s.writer.file_no + 1) % U32 = s.writer.file_no + 1 := Nat.mod_eq_of_lt hfn
  constructor
  · intro hroll
    have hfile : (rolloverCursors s).writer.file_no = s.writer.file_no + 1 := by
      by_cases hsh : s.writer.buf_idx = s.reader.buf_idx
      · rw [rolloverCursors_shared s hsh]; exact hmod
      · rw [rolloverCursors_split s hsh]; exact hmod
    refine ⟨?_, ?_, hfile, ?_, ?_, ?_⟩
    · intro hsh
      rw [rolloverCursors_shared s hsh]
      exact ⟨rfl, rfl⟩
    · intro hsh
      rw [rolloverCursors_split s hsh]
      exact ⟨rfl, rfl⟩
    · by_cases hsh : s.writer.buf_idx = s.reader.buf_idx
      · rw [rolloverCursors_shared s hsh]
      · rw [rolloverCursors_split s hsh]
    · intro hrb
      rw [append_roll env s r hroll hrb]
      rw [appendBody_fh_file_no, appendBody_fh_mode]
      constructor
      · show (rolloverCursors s).writer.file_no = _
        exact hfile
      · rfl
    · intro hrb
      exact append_roll_fail env s r hroll hrb
  · intro hle
    have hnroll : ¬ surplusSpace s < recordSize r := by omega
    rw [append_no_roll env s r hnroll]
    exact ⟨appendBody_writer_file_no env s r _, appendBody_writer_buf_idx env s r _,
      appendBody_reader env s r _⟩

/-- Witness for C3 at `c1state` and `c1rec` (no-rollover side: 34 bytes fit
in the 64-byte buffer; rollover side vacuous at this input is avoided by
also instantiating a full state): both implications are exercised. -/
theorem c3_rollover_witness :
    (surplusSpace c1state < recordSize c1rec →
      ((c1state.writer.buf_idx = c1state.reader.buf_idx →
         (rolloverCursors c1state).reader.max_offset = c1state.writer.buf_offset ∧
         (rolloverCursors c1state).writer.buf_idx = c1state.writer.buf_idx ^^^ 1) ∧
       (c1state.writer.buf_idx ≠ c1state.reader.buf_idx →
         (rolloverCursors c1state).reader = c1state.reader ∧
         (rolloverCursors c1state).writer.buf_idx = c1state.writer.buf_idx) ∧
       (rolloverCursors c1state).writer.file_no = c1state.writer.file_no + 1 ∧
       (rolloverCursors c1state).writer.buf_offset = 0 ∧
       (envOk.reborn_ok = true →
         (append envOk c1state c1rec).2.1.fh_file_no = c1state.writer.file_no + 1 ∧
         (append envOk c1state c1rec).2.1.fh_mode = FileMode.W) ∧
       (envOk.reborn_ok = false →
         append envOk c1state c1rec
           = (ErrorCode.WAL_FILE_ERROR, rolloverCursors c1state, c1rec)))) ∧
    (recordSize c1rec ≤ surplusSpace c1state →
      (append envOk c1state c1rec).2.1.writer.file_no = c1state.writer.file_no ∧
      (append envOk c1state c1rec).2.1.writer.buf_idx = c1state.writer.buf_idx ∧
      (append envOk c1state c1rec).2.1.reader = c1state.reader) :=
  c3_rollover envOk c1state c1rec (by decide)

/-- C8: Reset postcondition.  After `Reset(lsn)` with `unpack(lsn) = (f, o)`
the writer cursor is `(f + 1, slab 0, offset 0)` when `o ≠ 0` and
`(f, slab 0, offset 0)` when `o = 0`; the reader cursor is an exact copy of
the writer cursor, both slabs are freshly reallocated, and the file handler
is closed and set to the new writer file in write mode. -/
theorem c8_reset (s : WalState) (lsn : Nat) (hfn : lsnFile lsn + 1 < U32) :
    (reset s lsn).writer.file_no
        = (if lsnOffset lsn ≠ 0 then lsnFile lsn + 1 else lsnFile lsn) ∧
    (reset s lsn).writer.buf_idx = 0 ∧
    (reset s lsn).writer.buf_offset = 0 ∧
    (reset s lsn).reader = (reset s lsn).writer ∧
    (reset s lsn).buf0 = List.replicate s.mxlog_buffer_size 0 ∧
    (reset s lsn).buf1 = List.replicate s.mxlog_buffer_size 0 ∧
    (reset s lsn).fh_open = false ∧
    (reset s lsn).fh_file_no = (reset s lsn).writer.file_no ∧
    (reset s lsn).fh_mode = FileMode.W := by
  dsimp only [reset]
  by_cases ho : lsnOffset lsn ≠ 0
  · rw [if_pos ho, if_pos ho]
    exact ⟨Nat.mod_eq_of_lt hfn, rfl, rfl, rfl, rfl, rfl, rfl, rfl, rfl⟩
  · rw [if_neg ho, if_neg ho]
    have ho0 : lsnOffset lsn = 0 := by omega
    exact ⟨rfl, rfl, ho0, rfl, rfl, rfl, rfl, rfl, rfl⟩

/-- Witness for C8 at `c1state` with `lsn = pack(3, 5)` (offset nonzero, so
the new segment is file 4). -/
theorem c8_reset_witness :
    (reset c1state (buildLsn 3 5)).writer.file_no
        = (if lsnOffset (buildLsn 3 5) ≠ 0 then lsnFile (buildLsn 3 5) + 1
           else lsnFile (buildLsn 3 5)) ∧
    (reset c1state (buildLsn 3 5)).writer.buf_idx = 0 ∧
    (reset c1state (buildLsn 3 5)).writer.buf_offset = 0 ∧
    (reset c1state (buildLsn 3 5)).reader = (reset c1state (buildLsn 3 5)).writer ∧
    (reset c1state (buildLsn 3 5)).buf0 = List.replicate c1state.mxlog_buffer_size 0 ∧
    (reset c1state (buildLsn 3 5)).buf1 = List.replicate c1state.mxlog_buffer_size 0 ∧
    (reset c1state (buildLsn 3 5)).fh_open = false ∧
    (reset c1state (buildLsn 3 5)).fh_file_no = (reset c1state (buildLsn 3 5)).writer.file_no ∧
    (reset c1state (buildLsn 3 5)).fh_mode = FileMode.W :=
  c8_reset c1state (buildLsn 3 5) (by decide)

/-! ### Post-rollover cursor abbreviations and LSN arithmetic -/

/-- The writer file number after `Append`'s (possible) rollover step. -/
def postRollFile (s : WalState) (n : Nat) : Nat :=
  if surplusSpace s < n then (s.writer.file_no + 1) % U32 else s.writer.file_no

/-- The writer byte offset after `Append`'s (possible) rollover step. -/
def postRollOffset (s : WalState) (n : Nat) : Nat :=
  if surplusSpace s < n then 0 else s.writer.buf_offset

theorem readBytes_writeAt_zero {slab : List Nat} {off : Nat} (p : List Nat) (k : Nat)
    (hoff : off ≤ slab.length) (hk : k ≤ p.length) :
    readBytes (writeAt slab off p) off k = p.take k := by
  have h := readBytes_writeAt p 0 k hoff (by omega)
  simpa using h

theorem rolloverCursors_file_no (s : WalState) :
    (rolloverCursors s).writer.file_no = (s.writer.file_no + 1) % U32 := by
  by_cases hsh : s.writer.buf_idx = s.reader.buf_idx
  · rw [rolloverCursors_shared s hsh]
  · rw [rolloverCursors_split s hsh]

theorem rolloverCursors_buf_offset (s : WalState) :
    (rolloverCursors s).writer.buf_offset = 0 := by
  by_cases hsh : s.writer.buf_idx = s.reader.buf_idx
  · rw [rolloverCursors_shared s hsh]
  · rw [rolloverCursors_split s hsh]

theorem rolloverCursors_buffer_size (s : WalState) :
    (rolloverCursors s).mxlog_buffer_size = s.mxlog_buffer_size := by
  by_cases hsh : s.writer.buf_idx = s.reader.buf_idx
  · rw [rolloverCursors_shared s hsh]
  · rw [rolloverCursors_split s hsh]

theorem appendBody_buffer_size (env : WalEnv) (s : WalState) (r : MXLogRecord) (n : Nat) :
    (appendBody env s r n).2.1.mxlog_buffer_size = s.mxlog_buffer_size := by
  cases hw : env.write_ok
  · rw [appendBody_fail env s r n hw]; simp
  · rw [appendBody_ok env s r n hw]; simp [diskWrite]

theorem buildLsn_eq {f o : Nat} (hf : f < U32) (ho : o < U32) :
    buildLsn f o = f * U32 + o := by
  unfold buildLsn U32 at *
  omega

theorem lsnFile_buildLsn {f o : Nat} (hf : f < U32) (ho : o < U32) :
    lsnFile (buildLsn f o) = f := by
  unfold lsnFile buildLsn U32 at *
  omega

theorem lsnOffset_buildLsn {f o : Nat} (_hf : f < U32) (ho : o < U32) :
    lsnOffset (buildLsn f o) = o := by
  unfold lsnOffset buildLsn U32 at *
  omega

/-- One successful `Append` with every I/O call succeeding: the result code,
the returned LSN, and the writer cursor of the post state, phrased with the
post-rollover cursor `(postRollFile, postRollOffset)`. -/
theorem append_lsn_ok (s : WalState) (r : MXLogRecord)
    (hB : s.mxlog_buffer_size < U32)
    (hoffB : s.writer.buf_offset ≤ s.mxlog_buffer_size)
    (hsz : rawSize r ≤ s.mxlog_buffer_size) (hwf : wfRecord r) :
    (append envOk s r).1 = ErrorCode.WAL_SUCCESS ∧
    (append envOk s r).2.2.lsn
      = buildLsn (postRollFile s (recordSize r))
          (postRollOffset s (recordSize r) + recordSize r) ∧
    (append envOk s r).2.1.writer.file_no = postRollFile s (recordSize r) ∧
    (append envOk s r).2.1.writer.buf_offset
      = postRollOffset s (recordSize r) + recordSize r ∧
    (append envOk s r).2.1.mxlog_buffer_size = s.mxlog_buffer_size := by
  have hraw32 : rawSize r < U32 := lt_of_le_of_lt hsz hB
  have hnsz : recordSize r = rawSize r := recordSize_eq_rawSize hwf hraw32
  have hplen : ∀ s' : WalState, (appendPayload s' r (recordSize r)).length = rawSize r :=
    fun s' => appendPayload_length hwf
  by_cases hroll : surplusSpace s < recordSize r
  · rw [append_roll envOk s r hroll rfl]
    rw [postRollFile, if_pos hroll, postRollOffset, if_pos hroll]
    refine ⟨?_, ?_, ?_, ?_, ?_⟩
    · rw [appendBody_ok envOk _ r _ rfl]
    · rw [appendBody_ok envOk _ r _ rfl]
      show buildLsn _ _ = _
      rw [rebornFH_writer, rolloverCursors_file_no, rolloverCursors_buf_offset]
    · rw [appendBody_writer_file_no, rebornFH_writer, rolloverCursors_file_no]
    · rw [appendBody_ok envOk _ r _ rfl]
      show (_ + (appendPayload _ r (recordSize r)).length) % U32 = _
      rw [hplen, rebornFH_writer, rolloverCursors_buf_offset, hnsz]
      unfold U32 at *
      omega
    · rw [appendBody_buffer_size, rebornFH_buffer_size, rolloverCursors_buffer_size]
  · rw [append_no_roll envOk s r hroll]
    rw [postRollFile, if_neg hroll, postRollOffset, if_neg hroll]
    have hfree : s.writer.buf_offset + recordSize r ≤ s.mxlog_buffer_size := by
      have hsur : surplusSpace s = s.mxlog_buffer_size - s.writer.buf_offset :=
        u32sub_exact hoffB hB
      rw [hsur] at hroll
      omega
    refine ⟨?_, ?_, appendBody_writer_file_no envOk s r _, ?_, appendBody_buffer_size envOk s r _⟩
    · rw [appendBody_ok envOk s r _ rfl]
    · rw [appendBody_ok envOk s r _ rfl]
      rfl
    · rw [appendBody_ok envOk s r _ rfl]
      show (_ + (appendPayload s r (recordSize r)).length) % U32 = _
      rw [hplen, hnsz]
      unfold U32 at *
      omega

/-- The serialized header of a successful `Append` embeds the returned LSN:
the first 8 bytes at the record's start offset in the current writer slab
decode to `record.lsn`. -/
theorem append_header_embed (s : WalState) (r : MXLogRecord)
    (hb0 : s.buf0.length = s.mxlog_buffer_size) (hb1 : s.buf1.length = s.mxlog_buffer_size)
    (hB : s.mxlog_buffer_size < U32)
    (hoffB : s.writer.buf_offset ≤ s.mxlog_buffer_size)
    (hsz : rawSize r ≤ s.mxlog_buffer_size) (hwf : wfRecord r) :
    leVal (readBytes
        (getSlab (append envOk s r).2.1 (append envOk s r).2.1.writer.buf_idx)
        (postRollOffset s (recordSize r)) 8)
      = (append envOk s r).2.2.lsn := by
  have hraw32 : rawSize r < U32 := lt_of_le_of_lt hsz hB
  have hnsz : recordSize r = rawSize r := recordSize_eq_rawSize hwf hraw32
  by_cases hroll : surplusSpace s < recordSize r
  · rw [append_roll envOk s r hroll rfl, postRollOffset, if_pos hroll]
    rw [appendBody_ok envOk _ r _ rfl]
    simp only [getSlab_writer_update, getSlab_diskWrite, getSlab_setSlab]
    have ho : (rebornFH (rolloverCursors s) (rolloverCursors s).writer.file_no).writer.buf_offset
        = 0 := by
      rw [rebornFH_writer, rolloverCursors_buf_offset]
    rw [ho, appendPayload_eq_payloadFor hwf]
    rw [readBytes_writeAt_zero _ 8 (Nat.zero_le _)
      (by rw [payloadFor_length _ hwf]; unfold rawSize sizeOfHeader; omega)]
    rw [(payloadFor_reads r _ hwf).1, leVal_leBytes_of_lt
      (by rw [show (256 : Nat) ^ 8 = 2 ^ 64 from by norm_num]; exact buildLsn_lt_u64 _ _)]
    rfl
  · rw [append_no_roll envOk s r hroll, postRollOffset, if_neg hroll]
    rw [appendBody_ok envOk s r _ rfl]
    simp only [getSlab_writer_update, getSlab_diskWrite, getSlab_setSlab]
    rw [appendPayload_eq_payloadFor hwf]
    rw [readBytes_writeAt_zero _ 8
      (by rw [getSlab_length _ hb0 hb1]; exact hoffB)
      (by rw [payloadFor_length _ hwf]; unfold rawSize sizeOfHeader; omega)]
    rw [(payloadFor_reads r _ hwf).1, leVal_leBytes_of_lt
      (by rw [show (256 : Nat) ^ 8 = 2 ^ 64 from by norm_num]; exact buildLsn_lt_u64 _ _)]
    rfl

theorem postRollFile_pos (s : WalState) (n : Nat) (h : surplusSpace s < n) :
    postRollFile s n = (s.writer.file_no + 1) % U32 := by
  unfold postRollFile; rw [if_pos h]

theorem postRollFile_neg (s : WalState) (n : Nat) (h : ¬ surplusSpace s < n) :
    postRollFile s n = s.writer.file_no := by
  unfold postRollFile; rw [if_neg h]

theorem postRollOffset_pos (s : WalState) (n : Nat) (h : surplusSpace s < n) :
    postRollOffset s n = 0 := by
  unfold postRollOffset; rw [if_pos h]

theorem postRollOffset_neg (s : WalState) (n : Nat) (h : ¬ surplusSpace s < n) :
    postRollOffset s n = s.writer.buf_offset := by
  unfold postRollOffset; rw [if_neg h]

/-- C2: LSN assignment and monotonicity.  Every successful `Append(r)`,
performed with the writer at file `f` and byte offset `o` after any
rollover, sets `record.lsn` to `(f << 32) | (o + RecordSize(r))` and embeds
that same value in the serialized header's `lsn` field; over two consecutive
successful `Append`s the returned LSNs are strictly increasing, with
`lsn(r2) - lsn(r1) = RecordSize(r2)` when both records land in the same
file, and across a rollover the file number increases by exactly 1 and the
offset half of `lsn(r2)` equals `RecordSize(r2)`. -/
theorem c2_lsn_assignment_monotonic
    (s : WalState) (r1 r2 : MXLogRecord)
    (hwfS : wfState s) (hwf1 : wfRecord r1) (hwf2 : wfRecord r2)
    (hsz1 : rawSize r1 ≤ s.mxlog_buffer_size) (hsz2 : rawSize r2 ≤ s.mxlog_buffer_size)
    (hfn : s.writer.file_no + 2 < U32) :
    (append envOk s r1).1 = ErrorCode.WAL_SUCCESS ∧
    (append envOk s r1).2.2.lsn
      = buildLsn (postRollFile s (recordSize r1))
          (postRollOffset s (recordSize r1) + recordSize r1) ∧
    leVal (readBytes
        (getSlab (append envOk s r1).2.1 (append envOk s r1).2.1.writer.buf_idx)
        (postRollOffset s (recordSize r1)) 8)
      = (append envOk s r1).2.2.lsn ∧
    (append envOk (append envOk s r1).2.1 r2).1 = ErrorCode.WAL_SUCCESS ∧
    (append envOk s r1).2.2.lsn < (append envOk (append envOk s r1).2.1 r2).2.2.lsn ∧
    (lsnFile (append envOk (append envOk s r1).2.1 r2).2.2.lsn
        = lsnFile (append envOk s r1).2.2.lsn →
      (append envOk (append envOk s r1).2.1 r2).2.2.lsn - (append envOk s r1).2.2.lsn
        = recordSize r2) ∧
    (lsnFile (append envOk (append envOk s r1).2.1 r2).2.2.lsn
        ≠ lsnFile (append envOk s r1).2.2.lsn →
      lsnFile (append envOk (append envOk s r1).2.1 r2).2.2.lsn
        = lsnFile (append envOk s r1).2.2.lsn + 1 ∧
      lsnOffset (append envOk (append envOk s r1).2.1 r2).2.2.lsn = recordSize r2) := by
  obtain ⟨hb0, hb1, hB, hoffB, hfw, hfr, hwi2, hri2, hro32, hrm32⟩ := hwfS
  have hraw1 : rawSize r1 < U32 := lt_of_le_of_lt hsz1 hB
  have hraw2 : rawSize r2 < U32 := lt_of_le_of_lt hsz2 hB
  have hn1 : recordSize r1 = rawSize r1 := recordSize_eq_rawSize hwf1 hraw1
  have hn2 : recordSize r2 = rawSize r2 := recordSize_eq_rawSize hwf2 hraw2
  have hpos2 : 0 < recordSize r2 := by
    rw [hn2]; unfold rawSize sizeOfHeader; omega
  obtain ⟨e1code, e1lsn, e1f, e1o, e1B⟩ := append_lsn_ok s r1 hB hoffB hsz1 hwf1
  have hembed := append_header_embed s r1 hb0 hb1 hB hoffB hsz1 hwf1
  have hF1 : postRollFile s (recordSize r1) = s.writer.file_no
      ∨ postRollFile s (recordSize r1) = s.writer.file_no + 1 := by
    by_cases hroll1 : surplusSpace s < recordSize r1
    · right; rw [postRollFile_pos s _ hroll1]; exact Nat.mod_eq_of_lt (by omega)
    · left; exact postRollFile_neg s _ hroll1
  have hF1lt : postRollFile s (recordSize r1) + 1 < U32 := by
    rcases hF1 with h | h <;> omega
  have hO1 : postRollOffset s (recordSize r1) + recordSize r1 ≤ s.mxlog_buffer_size := by
    by_cases hroll1 : surplusSpace s < recordSize r1
    · rw [postRollOffset_pos s _ hroll1]; omega
    · rw [postRollOffset_neg s _ hroll1]
      have hsur : surplusSpace s = s.mxlog_buffer_size - s.writer.buf_offset :=
        u32sub_exact hoffB hB
      rw [hsur] at hroll1
      omega
  obtain ⟨e2code, e2lsn, e2f, e2o, e2B⟩ :=
    append_lsn_ok (append envOk s r1).2.1 r2 (by rw [e1B]; exact hB)
      (by rw [e1o, e1B]; exact hO1) (by rw [e1B]; exact hsz2) hwf2
  refine ⟨e1code, e1lsn, hembed, e2code, ?_, ?_, ?_⟩
  · -- strict increase
    rw [e1lsn, e2lsn]
    by_cases hroll2 : surplusSpace (append envOk s r1).2.1 < recordSize r2
    · rw [postRollFile_pos _ _ hroll2, postRollOffset_pos _ _ hroll2, e1f,
        Nat.mod_eq_of_lt (show postRollFile s (recordSize r1) + 1 < U32 from hF1lt)]
      exact buildLsn_lt_file (by omega) hF1lt
    · rw [postRollFile_neg _ _ hroll2, postRollOffset_neg _ _ hroll2, e1f, e1o]
      have hsur : surplusSpace (append envOk s r1).2.1
          = s.mxlog_buffer_size - (postRollOffset s (recordSize r1) + recordSize r1) := by
        unfold surplusSpace
        rw [e1o, e1B]
        exact u32sub_exact hO1 hB
      rw [hsur] at hroll2
      exact buildLsn_lt_offset (by omega) (by omega)
  · -- same file: difference is RecordSize(r2)
    intro hsame
    rw [e1lsn, e2lsn] at hsame ⊢
    by_cases hroll2 : surplusSpace (append envOk s r1).2.1 < recordSize r2
    · exfalso
      rw [postRollFile_pos _ _ hroll2, postRollOffset_pos _ _ hroll2, e1f,
        Nat.mod_eq_of_lt (show postRollFile s (recordSize r1) + 1 < U32 from hF1lt)] at hsame
      rw [lsnFile_buildLsn (by omega) (by omega),
        lsnFile_buildLsn (by omega) (by omega)] at hsame
      omega
    · rw [postRollFile_neg _ _ hroll2, postRollOffset_neg _ _ hroll2, e1f, e1o]
      have hsur : surplusSpace (append envOk s r1).2.1
          = s.mxlog_buffer_size - (postRollOffset s (recordSize r1) + recordSize r1) := by
        unfold surplusSpace
        rw [e1o, e1B]
        exact u32sub_exact hO1 hB
      rw [hsur] at hroll2
      rw [buildLsn_eq (by omega) (by omega), buildLsn_eq (by omega) (by omega)]
      omega
  · -- rollover between the two appends
    intro hdiff
    rw [e1lsn, e2lsn] at hdiff ⊢
    by_cases hroll2 : surplusSpace (append envOk s r1).2.1 < recordSize r2
    · rw [postRollFile_pos _ _ hroll2, postRollOffset_pos _ _ hroll2, e1f,
        Nat.mod_eq_of_lt (show postRollFile s (recordSize r1) + 1 < U32 from hF1lt)]
      constructor
      · rw [lsnFile_buildLsn (by omega) (by omega),
          lsnFile_buildLsn (by omega) (by omega)]
      · rw [lsnOffset_buildLsn (by omega) (by omega)]
        omega
    · exfalso
      apply hdiff
      rw [postRollFile_neg _ _ hroll2, postRollOffset_neg _ _ hroll2, e1f, e1o]
      have hsur : surplusSpace (append envOk s r1).2.1
          = s.mxlog_buffer_size - (postRollOffset s (recordSize r1) + recordSize r1) := by
        unfold surplusSpace
        rw [e1o, e1B]
        exact u32sub_exact hO1 hB
      rw [hsur] at hroll2
      rw [lsnFile_buildLsn (by omega) (by omega),
        lsnFile_buildLsn (by omega) (by omega)]

/-- Witness for C2: two consecutive appends of `c1rec` to `c1state`
(both land in file 0; LSNs 34 and 68). -/
theorem c2_lsn_assignment_monotonic_witness :
    (append envOk c1state c1rec).1 = ErrorCode.WAL_SUCCESS ∧
    (append envOk c1state c1rec).2.2.lsn
      = buildLsn (postRollFile c1state (recordSize c1rec))
          (postRollOffset c1state (recordSize c1rec) + recordSize c1rec) ∧
    leVal (readBytes
        (getSlab (append envOk c1state c1rec).2.1
          (append envOk c1state c1rec).2.1.writer.buf_idx)
        (postRollOffset c1state (recordSize c1rec)) 8)
      = (append envOk c1state c1rec).2.2.lsn ∧
    (append envOk (append envOk c1state c1rec).2.1 c1rec).1 = ErrorCode.WAL_SUCCESS ∧
    (append envOk c1state c1rec).2.2.lsn
      < (append envOk (append envOk c1state c1rec).2.1 c1rec).2.2.lsn ∧
    (lsnFile (append envOk (append envOk c1state c1rec).2.1 c1rec).2.2.lsn
        = lsnFile (append envOk c1state c1rec).2.2.lsn →
      (append envOk (append envOk c1state c1rec).2.1 c1rec).2.2.lsn
          - (append envOk c1state c1rec).2.2.lsn
        = recordSize c1rec) ∧
    (lsnFile (append envOk (append envOk c1state c1rec).2.1 c1rec).2.2.lsn
        ≠ lsnFile (append envOk c1state c1rec).2.2.lsn →
      lsnFile (append envOk (append envOk c1state c1rec).2.1 c1rec).2.2.lsn
        = lsnFile (append envOk c1state c1rec).2.2.lsn + 1 ∧
      lsnOffset (append envOk (append envOk c1state c1rec).2.1 c1rec).2.2.lsn
        = recordSize c1rec) :=
  c2_lsn_assignment_monotonic c1state c1rec c1rec (by decide) (by decide) (by decide)
    (by decide) (by decide) (by decide)

/-! ### C6: Append error atomicity -/

/-- A state whose writer slab has only 14 free bytes, so appending `c1rec`
(34 bytes) forces a rollover. -/
def c6state : WalState :=
  ⟨64, List.replicate 64 0, List.replicate 64 0, ⟨0, 0, 50, 0⟩, ⟨0, 0, 50, 0⟩, 0, .W, false,
    fun n => if n = 0 then some [] else none⟩

/-- Counterexample for C6 as stated: when the rollover's `ReBorn` fails,
`Append` returns `WAL_FILE_ERROR` but `writer.file_no`, `writer.buf_offset`,
`writer.buf_idx` and `reader.max_offset` have all already been advanced. -/
theorem c6_error_advances_state :
    (append ⟨false, true, true, true⟩ c6state c1rec).1 = ErrorCode.WAL_FILE_ERROR ∧
    (append ⟨false, true, true, true⟩ c6state c1rec).2.1.writer.file_no
      ≠ c6state.writer.file_no ∧
    (append ⟨false, true, true, true⟩ c6state c1rec).2.1.writer.buf_offset
      ≠ c6state.writer.buf_offset ∧
    (append ⟨false, true, true, true⟩ c6state c1rec).2.1.writer.buf_idx
      ≠ c6state.writer.buf_idx ∧
    (append ⟨false, true, true, true⟩ c6state c1rec).2.1.reader.max_offset
      ≠ c6state.reader.max_offset := by
  decide

/-- C6 (amended): whenever `Append` returns an error, the record (and in
particular `record.lsn`) is left untouched; and when the failure happens
without a rollover (free space at least `RecordSize(r)`, so the only error
path is a failed `Write`), the cursors, the disk and the file handler are
also left exactly as they were.  When a rollover happened before the
failure, its cursor updates persist (see `c6_error_advances_state`). -/
theorem c6_error_atomic_no_rollover (env : WalEnv) (s : WalState) (r : MXLogRecord) :
    ((append env s r).1 = ErrorCode.WAL_FILE_ERROR → (append env s r).2.2 = r) ∧
    ((append env s r).1 = ErrorCode.WAL_FILE_ERROR → recordSize r ≤ surplusSpace s →
      (append env s r).2.1.writer = s.writer ∧
      (append env s r).2.1.reader = s.reader ∧
      (append env s r).2.1.disk = s.disk ∧
      (append env s r).2.1.fh_file_no = s.fh_file_no) := by
  by_cases hroll : surplusSpace s < recordSize r
  · cases hrb : env.reborn_ok
    · rw [append_roll_fail env s r hroll hrb]
      exact ⟨fun _ => rfl, fun _ hle => absurd hle (by omega)⟩
    · rw [append_roll env s r hroll hrb]
      cases hw : env.write_ok
      · rw [appendBody_fail env _ r _ hw]
        exact ⟨fun _ => rfl, fun _ hle => absurd hle (by omega)⟩
      · rw [appendBody_ok env _ r _ hw]
        exact ⟨fun h => absurd h (by simp), fun h hle => absurd hle (by omega)⟩
  · rw [append_no_roll env s r hroll]
    cases hw : env.write_ok
    · rw [appendBody_fail env s r _ hw]
      exact ⟨fun _ => rfl, fun _ _ => ⟨by simp, by simp, by simp, by simp⟩⟩
    · rw [appendBody_ok env s r _ hw]
      exact ⟨fun h => absurd h (by simp), fun h _ => absurd h (by simp)⟩

/-- Witness for C6 (amended): a failed `Write` with no rollover needed
leaves the record and both cursors untouched. -/
theorem c6_error_atomic_no_rollover_witness :
    (append ⟨true, false, true, true⟩ c1state c1rec).2.2 = c1rec ∧
    (append ⟨true, false, true, true⟩ c1state c1rec).2.1.writer = c1state.writer ∧
    (append ⟨true, false, true, true⟩ c1state c1rec).2.1.reader = c1state.reader :=
  ⟨(c6_error_atomic_no_rollover ⟨true, false, true, true⟩ c1state c1rec).1 (by decide),
   ((c6_error_atomic_no_rollover ⟨true, false, true, true⟩ c1state c1rec).2 (by decide)
      (by decide)).1,
   ((c6_error_atomic_no_rollover ⟨true, false, true, true⟩ c1state c1rec).2 (by decide)
      (by decide)).2.1⟩

/-! ### C7: oversize record -/

/-- A 30-byte buffer. -/
def c7state : WalState :=
  ⟨30, List.replicate 30 0, List.replicate 30 0, ⟨0, 0, 0, 0⟩, ⟨0, 0, 0, 0⟩, 0, .W, false,
    fun n => if n = 0 then some [] else none⟩

/-- A record of 41 bytes, larger than `c7state`'s whole buffer. -/
def c7rec : MXLogRecord :=
  ⟨.InsertEntity, 0, [], [], 0, [], 20, List.replicate 20 5⟩

/-- C7 evaluated at the failing input: the code performs a rollover
(truncating a fresh `1.wal` on disk), copies the record past the end of the
30-byte slab (the in-memory slab grows beyond `buffer_size`, modelling the
heap overflow), writes all 41 bytes to disk, assigns the record an LSN and
returns `WAL_SUCCESS` — it never returns an error for the oversize record. -/
theorem c7_oversize_writes_and_succeeds :
    c7state.mxlog_buffer_size < recordSize c7rec ∧
    (append envOk c7state c7rec).1 = ErrorCode.WAL_SUCCESS ∧
    (append envOk c7state c7rec).2.2.lsn = buildLsn 1 41 ∧
    (append envOk c7state c7rec).2.1.fh_file_no = 1 ∧
    fileSize (append envOk c7state c7rec).2.1.disk 1 = 41 ∧
    c7state.mxlog_buffer_size < ((append envOk c7state c7rec).2.1.buf1).length := by
  decide

/-! ### C10: failed Next is not atomic -/

/-- C10 (implicit): when `Next` finds the reader's segment exhausted
(`reader.file_no ≠ writer.file_no` and `reader.buf_offset ==
reader.max_offset`) and then the demand-load of the next segment file fails
(file missing, open failure or load failure), it returns `WAL_FILE_ERROR`
with the reader cursor already mutated: `reader.file_no` incremented by 1,
`reader.buf_offset` reset to 0, `reader.max_offset` unchanged, so
`GetReadLsn()` differs from its value at entry even though no record was
produced. -/
theorem c10_failed_next_mutates (env : WalEnv) (s : WalState) (lal : Nat) (r0 : MXLogRecord)
    (hlt : getReadLsn s < lal)
    (hne : s.reader.file_no ≠ s.writer.file_no)
    (hmax : s.reader.buf_offset = s.reader.max_offset)
    (hfn : s.reader.file_no + 1 < U32)
    (hne2 : s.reader.file_no + 1 ≠ s.writer.file_no)
    (hfail : s.disk (s.reader.file_no + 1) = none
      ∨ env.open_ok = false ∨ env.load_ok = false) :
    (next env s lal r0).1 = ErrorCode.WAL_FILE_ERROR ∧
    (next env s lal r0).2.1.reader.file_no = s.reader.file_no + 1 ∧
    (next env s lal r0).2.1.reader.buf_offset = 0 ∧
    (next env s lal r0).2.1.reader.max_offset = s.reader.max_offset ∧
    getReadLsn (next env s lal r0).2.1 ≠ getReadLsn s ∧
    (next env s lal r0).2.2.type = MXLogType.None := by
  have hmod : (s.reader.file_no + 1) % U32 = s.reader.file_no + 1 := Nat.mod_eq_of_lt hfn
  have hadv : s.reader.file_no ≠ s.writer.file_no
      ∧ s.reader.buf_offset = s.reader.max_offset := ⟨hne, hmax⟩
  have hlsn_ne : getReadLsn
      { s with reader := { s.reader with file_no := s.reader.file_no + 1, buf_offset := 0 } }
      ≠ getReadLsn s := by
    unfold getReadLsn buildLsn U32 at *
    dsimp only
    omega
  simp only [next, if_neg (show ¬ lal ≤ getReadLsn s by omega), if_pos hadv, hmod]
  rw [if_neg hne2]
  rw [if_pos (show (s.reader.file_no ≠ s.writer.file_no ∧ s.reader.buf_offset = s.reader.max_offset) ∧ s.reader.file_no + 1 ≠ s.writer.file_no from ⟨hadv, hne2⟩)]
  rcases hfail with hd | hflag
  · rw [hd]
    exact ⟨rfl, rfl, rfl, rfl, hlsn_ne, rfl⟩
  · cases hdk : s.disk (s.reader.file_no + 1) with
    | none =>
      exact ⟨rfl, rfl, rfl, rfl, hlsn_ne, rfl⟩
    | some bs =>
      dsimp only
      rw [if_neg (show ¬ (env.open_ok = true ∧ env.load_ok = true) from by
        rcases hflag with h | h <;> simp [h])]
      exact ⟨rfl, rfl, rfl, rfl, hlsn_ne, rfl⟩

/-- A state whose reader sits at the end of sealed file 0 while the writer
is in file 5, with file `1.wal` missing from disk. -/
def c10state : WalState :=
  ⟨64, List.replicate 64 0, List.replicate 64 0, ⟨0, 5, 0, 1⟩, ⟨0, 0, 0, 0⟩, 5, .W, false,
    fun n => if n = 0 then some [] else none⟩

/-- Witness for C10: `Next` on `c10state` with bound 7 fails to open
`1.wal` and leaves the reader cursor advanced to file 1 offset 0. -/
theorem c10_failed_next_mutates_witness :
    (next envOk c10state 7 c1rec).1 = ErrorCode.WAL_FILE_ERROR ∧
    (next envOk c10state 7 c1rec).2.1.reader.file_no = c10state.reader.file_no + 1 ∧
    (next envOk c10state 7 c1rec).2.1.reader.buf_offset = 0 ∧
    (next envOk c10state 7 c1rec).2.1.reader.max_offset = c10state.reader.max_offset ∧
    getReadLsn (next envOk c10state 7 c1rec).2.1 ≠ getReadLsn c10state ∧
    (next envOk c10state 7 c1rec).2.2.type = MXLogType.None :=
  c10_failed_next_mutates envOk c10state 7 c1rec (by decide) (by decide) (by decide)
    (by decide) (by decide) (Or.inl (by decide))

/-! ### C9: Init scan, failure, and buffer growth -/

theorem scanNeed_none (disk : Nat → Option (List Nat)) :
    ∀ (k i j : Nat), i ≤ j → j < i + k → fileSize disk j = 0 → scanNeed disk i k = none := by
  intro k
  induction k with
  | zero => intro i j h1 h2 _; omega
  | succ k ih =>
    intro i j h1 h2 hz
    by_cases hi : fileSize disk i = 0
    · simp [scanNeed, hi]
    · have hij : i ≠ j := fun he => hi (he ▸ hz)
      have hrec : scanNeed disk (i + 1) k = none := ih (i + 1) j (by omega) (by omega) hz
      simp [scanNeed, hi, hrec]

theorem scanNeed_bound (disk : Nat → Option (List Nat)) :
    ∀ (k i m : Nat), scanNeed disk i k = some m →
      ∀ j, i ≤ j → j < i + k → fileSize disk j ≤ m ∧ fileSize disk j ≠ 0 := by
  intro k
  induction k with
  | zero => intro i m _ j h1 h2; omega
  | succ k ih =>
    intro i m h j h1 h2
    by_cases hi : fileSize disk i = 0
    · simp [scanNeed, hi] at h
    · rw [show scanNeed disk i (k + 1)
          = (match scanNeed disk (i + 1) k with
             | none => none
             | some m' => some (Nat.max (fileSize disk i) m')) from by
          simp [scanNeed, hi]] at h
      cases hs : scanNeed disk (i + 1) k with
      | none => rw [hs] at h; exact absurd h (by simp)
      | some m' =>
        rw [hs] at h
        have hm : Nat.max (fileSize disk i) m' = m := by
          simpa using h
        by_cases hj : j = i
        · subst hj
          exact ⟨hm ▸ Nat.le_max_left _ _, hi⟩
        · have hr := ih (i + 1) m' hs j (by omega) (by omega)
          exact ⟨le_trans hr.1 (hm ▸ Nat.le_max_right _ _), hr.2⟩

theorem initAlloc_buffer_size (s : WalState) :
    (initAlloc s).2.mxlog_buffer_size = s.mxlog_buffer_size := by
  simp only [initAlloc]
  repeat' split
  all_goals rfl

/-- C9: Init scan, failure, and buffer growth.  For `start_lsn ≠ end_lsn`,
`Init` scans every file number from `reader.file_no` up to
`writer.file_no - 1` inclusive and returns false if any of those files has
size zero; if `Init` returns true, then `buffer_size` is at least every
scanned file size and at least `writer.buf_offset` (the offset half of
`end_lsn`); and `buffer_size` never shrinks across `Init`. -/
theorem c9_init_scan (s : WalState) (start_lsn end_lsn : Nat) (hne : start_lsn ≠ end_lsn) :
    ((init s start_lsn end_lsn).1 = true →
      (∀ i, lsnFile start_lsn ≤ i → i < lsnFile end_lsn →
        fileSize s.disk i ≤ (init s start_lsn end_lsn).2.mxlog_buffer_size ∧
        fileSize s.disk i ≠ 0) ∧
      lsnOffset end_lsn ≤ (init s start_lsn end_lsn).2.mxlog_buffer_size) ∧
    (∀ i, lsnFile start_lsn ≤ i → i < lsnFile end_lsn → fileSize s.disk i = 0 →
      (init s start_lsn end_lsn).1 = false) ∧
    s.mxlog_buffer_size ≤ (init s start_lsn end_lsn).2.mxlog_buffer_size := by
  simp only [init, if_neg hne]
  cases hscan : scanNeed s.disk (lsnFile start_lsn) (lsnFile end_lsn - lsnFile start_lsn) with
  | none =>
    dsimp only
    refine ⟨fun h => absurd h (by simp), fun i h1 h2 hz => rfl, le_refl _⟩
  | some m =>
    dsimp only
    have hbound := scanNeed_bound s.disk _ _ _ hscan
    have hgrow : s.mxlog_buffer_size
        ≤ (if s.mxlog_buffer_size < Nat.max m (lsnOffset end_lsn)
           then Nat.max m (lsnOffset end_lsn) else s.mxlog_buffer_size) := by
      split <;> omega
    have hneed : Nat.max m (lsnOffset end_lsn)
        ≤ (if s.mxlog_buffer_size < Nat.max m (lsnOffset end_lsn)
           then Nat.max m (lsnOffset end_lsn) else s.mxlog_buffer_size) := by
      split <;> omega
    refine ⟨fun _ => ⟨fun i h1 h2 => ?_, ?_⟩, fun i h1 h2 hz => ?_, ?_⟩
    · have hb := hbound i h1 (by omega)
      refine ⟨?_, hb.2⟩
      calc fileSize s.disk i ≤ m := hb.1
        _ ≤ Nat.max m (lsnOffset end_lsn) := Nat.le_max_left _ _
        _ ≤ _ := by
              rw [initAlloc_buffer_size]
              split <;> dsimp only <;> omega
    · calc lsnOffset end_lsn ≤ Nat.max m (lsnOffset end_lsn) := Nat.le_max_right _ _
        _ ≤ _ := by
              rw [initAlloc_buffer_size]
              split <;> dsimp only <;> omega
    · exfalso
      have hb := hbound i h1 (by omega)
      exact hb.2 hz
    · calc s.mxlog_buffer_size
          ≤ (if s.mxlog_buffer_size < Nat.max m (lsnOffset end_lsn)
             then Nat.max m (lsnOffset end_lsn) else s.mxlog_buffer_size) := hgrow
        _ ≤ _ := by
              rw [initAlloc_buffer_size]
              split <;> dsimp only <;> omega

/-- A recovery scenario: file `0.wal` holds 3 bytes, file `1.wal` holds 5
bytes, and `Init` runs from `start_lsn = 0` to `end_lsn = pack(1, 5)`. -/
def c9state : WalState :=
  ⟨64, List.replicate 64 0, List.replicate 64 0, ⟨0, 0, 0, 0⟩, ⟨0, 0, 0, 0⟩, 0, .W, false,
    fun n => if n = 0 then some [1, 2, 3]
             else if n = 1 then some (List.replicate 5 7) else none⟩

/-- Witness for C9: the scan/growth facts instantiated on `c9state`. -/
theorem c9_init_scan_witness :
    (init c9state 0 (buildLsn 1 5)).1 = true ∧
    fileSize c9state.disk 0 ≤ (init c9state 0 (buildLsn 1 5)).2.mxlog_buffer_size ∧
    lsnOffset (buildLsn 1 5) ≤ (init c9state 0 (buildLsn 1 5)).2.mxlog_buffer_size ∧
    c9state.mxlog_buffer_size ≤ (init c9state 0 (buildLsn 1 5)).2.mxlog_buffer_size := by
  refine ⟨by decide, ?_, ?_, (c9_init_scan c9state 0 (buildLsn 1 5) (by decide)).2.2⟩
  · exact (((c9_init_scan c9state 0 (buildLsn 1 5) (by decide)).1 (by decide)).1 0
      (by decide) (by decide)).1
  · exact ((c9_init_scan c9state 0 (buildLsn 1 5) (by decide)).1 (by decide)).2

/-! ### C5: The slab-sharing invariant -/

theorem xor_one_ne (x : Nat) : x ^^^ 1 ≠ x := by
  intro h
  have h2 := congrArg (Nat.testBit · 0) h
  simp [Nat.testBit_xor] at h2
  omega

/-- The slab-sharing invariant together with the cursor-order facts needed
to maintain it: the two cursors share a slab exactly when they stand in the
same file, the reader file never lies past the writer file, and both file
numbers fit in `uint32`. -/
def cursorInv (s : WalState) : Prop :=
  (s.reader.file_no = s.writer.file_no ↔ s.reader.buf_idx = s.writer.buf_idx)
    ∧ s.reader.file_no ≤ s.writer.file_no
    ∧ s.writer.file_no < U32 ∧ s.reader.file_no < U32

instance (s : WalState) : Decidable (cursorInv s) := by
  unfold cursorInv
  infer_instance

/-- The rollover cursor mutation preserves `cursorInv` as long as
`writer.file_no` does not wrap around `uint32`. -/
theorem cursorInv_rolloverCursors (s : WalState) (h : cursorInv s)
    (hfn : s.writer.file_no + 1 < U32) : cursorInv (rolloverCursors s) := by
  obtain ⟨hiff, hle, hw, hr⟩ := h
  by_cases hsh : s.writer.buf_idx = s.reader.buf_idx
  · rw [rolloverCursors_shared s hsh]
    have hrf : s.reader.file_no = s.writer.file_no := hiff.mpr hsh.symm
    unfold cursorInv
    dsimp only
    rw [Nat.mod_eq_of_lt hfn]
    refine ⟨⟨fun hEq => absurd hEq (by omega), ?_⟩, by omega, by omega, hr⟩
    intro hIdx
    exact absurd ((hsh.trans hIdx).symm) (xor_one_ne s.writer.buf_idx)
  · rw [rolloverCursors_split s hsh]
    have hrne : s.reader.file_no ≠ s.writer.file_no := fun hEq => hsh (hiff.mp hEq).symm
    unfold cursorInv
    dsimp only
    rw [Nat.mod_eq_of_lt hfn]
    exact ⟨⟨fun hEq => absurd hEq (by omega), fun hIdx => absurd (hiff.mpr hIdx) hrne⟩,
      by omega, by omega, hr⟩

/-- The serialization body of `Append` never touches the cursor fields the
invariant speaks about. -/
theorem cursorInv_appendBody (env : WalEnv) (x : WalState) (r : MXLogRecord) (n : Nat)
    (h : cursorInv x) : cursorInv (appendBody env x r n).2.1 := by
  unfold cursorInv at h ⊢
  rw [appendBody_reader, appendBody_writer_file_no, appendBody_writer_buf_idx]
  exact h

/-- `Append` preserves `cursorInv`, in both the rollover and the in-place
branch and whether or not the `ReBorn`/`Write` calls succeed, provided a
rollover does not wrap `writer.file_no`. -/
theorem cursorInv_append (env : WalEnv) (s : WalState) (r : MXLogRecord)
    (h : cursorInv s)
    (hg : surplusSpace s < recordSize r → s.writer.file_no + 1 < U32) :
    cursorInv (append env s r).2.1 := by
  by_cases hroll : surplusSpace s < recordSize r
  · have hrc := cursorInv_rolloverCursors s h (hg hroll)
    cases hrb : env.reborn_ok with
    | false =>
      rw [append_roll_fail env s r hroll hrb]
      exact hrc
    | true =>
      rw [append_roll env s r hroll hrb]
      have hreborn : cursorInv (rebornFH (rolloverCursors s)
          (rolloverCursors s).writer.file_no) := by
        unfold cursorInv at hrc ⊢
        rw [rebornFH_writer, rebornFH_reader]
        exact hrc
      exact cursorInv_appendBody env _ r (recordSize r) hreborn
  · rw [append_no_roll env s r hroll]
    exact cursorInv_appendBody env s r (recordSize r) h

theorem nextDeserialize_reader_file_no (s : WalState) (r : MXLogRecord) :
    (nextDeserialize s r).2.1.reader.file_no = s.reader.file_no := rfl

theorem nextDeserialize_reader_buf_idx (s : WalState) (r : MXLogRecord) :
    (nextDeserialize s r).2.1.reader.buf_idx = s.reader.buf_idx := rfl

theorem nextDeserialize_writer (s : WalState) (r : MXLogRecord) :
    (nextDeserialize s r).2.1.writer = s.writer := rfl

/-- `Next` without a segment advance (either the reader is in the writer's
file or it has not exhausted its segment) goes straight to deserialization. -/
theorem next_no_advance_general (env : WalEnv) (s : WalState) (lal : Nat) (r0 : MXLogRecord)
    (hlt : getReadLsn s < lal)
    (hnadv : ¬(s.reader.file_no ≠ s.writer.file_no
      ∧ s.reader.buf_offset = s.reader.max_offset)) :
    next env s lal r0 = nextDeserialize s { r0 with type := MXLogType.None } := by
  simp only [next, if_neg (show ¬ lal ≤ getReadLsn s by omega), if_neg hnadv,
    if_neg (show ¬((s.reader.file_no ≠ s.writer.file_no
      ∧ s.reader.buf_offset = s.reader.max_offset)
      ∧ s.reader.file_no ≠ s.writer.file_no) from fun h => hnadv h.1)]

/-- `Next` preserves `cursorInv` on every control path: end of stream,
in-segment read, slab adoption, and demand load (successful or failed). -/
theorem cursorInv_next (env : WalEnv) (s : WalState) (lal : Nat) (r0 : MXLogRecord)
    (h : cursorInv s) : cursorInv (next env s lal r0).2.1 := by
  obtain ⟨hiff, hle, hw, hr⟩ := h
  by_cases hend : lal ≤ getReadLsn s
  · rw [next_end env s lal r0 hend]
    exact ⟨hiff, hle, hw, hr⟩
  · have hlt : getReadLsn s < lal := by omega
    by_cases hadv : s.reader.file_no ≠ s.writer.file_no
        ∧ s.reader.buf_offset = s.reader.max_offset
    · have hrlt : s.reader.file_no < s.writer.file_no :=
        Nat.lt_of_le_of_ne hle hadv.1
      by_cases hcatch : (s.reader.file_no + 1) % U32 = s.writer.file_no
      · rw [next_advance_adopt env s lal r0 hlt hadv.1 hadv.2 hcatch]
        unfold cursorInv
        rw [nextDeserialize_writer, nextDeserialize_reader_file_no,
          nextDeserialize_reader_buf_idx]
        exact ⟨⟨fun _ => rfl, fun _ => hcatch⟩, Nat.le_of_eq hcatch, hw,
          Nat.lt_of_le_of_lt (Nat.le_of_eq hcatch) hw⟩
      · have hmod : (s.reader.file_no + 1) % U32 = s.reader.file_no + 1 :=
          Nat.mod_eq_of_lt (by omega)
        have hne2 : s.reader.file_no + 1 ≠ s.writer.file_no := fun hEq =>
          hcatch (by rw [hmod, hEq])
        have hfields : ∀ t : WalState, t.reader.file_no = s.reader.file_no + 1 →
            t.reader.buf_idx = s.reader.buf_idx → t.writer = s.writer → cursorInv t := by
          intro t h1 h2 h3
          unfold cursorInv
          rw [h1, h2, h3]
          exact ⟨⟨fun hEq => absurd hEq hne2,
            fun hIdx => absurd (hiff.mpr hIdx) hadv.1⟩, by omega, hw, by omega⟩
        simp only [next, if_neg (show ¬ lal ≤ getReadLsn s by omega), if_pos hadv, hmod]
        rw [if_neg hne2]
        rw [if_pos (show (s.reader.file_no ≠ s.writer.file_no
          ∧ s.reader.buf_offset = s.reader.max_offset)
          ∧ s.reader.file_no + 1 ≠ s.writer.file_no from ⟨hadv, hne2⟩)]
        cases hdk : s.disk (s.reader.file_no + 1) with
        | none =>
          exact hfields _ rfl rfl rfl
        | some bs =>
          dsimp only
          by_cases hok : env.open_ok = true ∧ env.load_ok = true
          · rw [if_pos hok]
            refine hfields _ ?_ ?_ ?_
            · simp only [nextDeserialize_reader_file_no, setSlab_reader]
            · simp only [nextDeserialize_reader_buf_idx, setSlab_reader]
            · simp only [nextDeserialize_writer, setSlab_writer]
          · rw [if_neg hok]
            exact hfields _ rfl rfl rfl
    · rw [next_no_advance_general env s lal r0 hlt hadv]
      unfold cursorInv
      rw [nextDeserialize_writer, nextDeserialize_reader_file_no,
        nextDeserialize_reader_buf_idx]
      exact ⟨hiff, hle, hw, hr⟩

/-- `Reset` establishes `cursorInv` outright: it copies the whole writer
cursor into the reader. -/
theorem cursorInv_reset (s : WalState) (lsn : Nat) : cursorInv (reset s lsn) := by
  unfold cursorInv reset
  dsimp only
  by_cases ho : lsnOffset lsn ≠ 0
  · rw [if_pos ho]
    exact ⟨⟨fun _ => rfl, fun _ => rfl⟩, Nat.le_refl _,
      Nat.mod_lt _ (by unfold U32; omega), Nat.mod_lt _ (by unfold U32; omega)⟩
  · rw [if_neg ho]
    exact ⟨⟨fun _ => rfl, fun _ => rfl⟩, Nat.le_refl _,
      Nat.mod_lt _ (by unfold U32; omega), Nat.mod_lt _ (by unfold U32; omega)⟩

/-- A successful `initAlloc` establishes `cursorInv`, given the file-number
order and bounds of its input cursors (its two branches set the slab indices
to `0/0` on a shared file and `0/1` on distinct files). -/
theorem initAlloc_inv (x : WalState) (s : WalState)
    (hle : x.reader.file_no ≤ x.writer.file_no)
    (hfw : x.writer.file_no < U32) (hfr : x.reader.file_no < U32)
    (h : initAlloc x = (true, s)) : cursorInv s := by
  simp only [initAlloc] at h
  by_cases hf : x.reader.file_no = x.writer.file_no
  · rw [if_pos hf] at h
    by_cases ho : x.writer.buf_offset = 0
    · rw [if_pos ho] at h
      injection h with h1 h2
      subst h2
      exact ⟨⟨fun _ => rfl, fun _ => hf⟩, hle, hfw, hfr⟩
    · rw [if_neg ho] at h
      cases hdk : x.disk x.writer.file_no with
      | none =>
        rw [hdk] at h
        simp at h
      | some bytes =>
        rw [hdk] at h
        dsimp only at h
        by_cases hload : x.reader.buf_offset
            + u32sub x.writer.buf_offset x.reader.buf_offset ≤ bytes.length
        · rw [if_pos hload] at h
          injection h with h1 h2
          subst h2
          exact ⟨⟨fun _ => rfl, fun _ => hf⟩, hle, hfw, hfr⟩
        · rw [if_neg hload] at h
          simp at h
  · rw [if_neg hf] at h
    cases hdr : x.disk x.reader.file_no with
    | none =>
      rw [hdr] at h
      simp at h
    | some rbytes =>
      rw [hdr] at h
      dsimp only at h
      by_cases hload : x.reader.buf_offset
          + u32sub (rbytes.length % U32) x.reader.buf_offset ≤ rbytes.length
      · rw [if_pos hload] at h
        dsimp only at h
        cases hdw : x.disk x.writer.file_no with
        | none =>
          rw [hdw] at h
          simp at h
        | some wbytes =>
          rw [hdw] at h
          dsimp only at h
          by_cases hwl : x.writer.buf_offset ≤ wbytes.length
          · rw [if_pos hwl] at h
            injection h with h1 h2
            subst h2
            exact ⟨⟨fun hEq => absurd hEq hf,
              fun hIdx => absurd (show (0 : Nat) = 1 from hIdx) (by decide)⟩,
              hle, hfw, hfr⟩
          · rw [if_neg hwl] at h
            simp at h
      · rw [if_neg hload] at h
        dsimp only at h
        cases hdw : x.disk x.writer.file_no with
        | none =>
          rw [hdw] at h
          simp at h
        | some wbytes =>
          rw [hdw] at h
          dsimp only at h
          by_cases hwl : x.writer.buf_offset ≤ wbytes.length
          · rw [if_pos hwl] at h
            injection h with h1 h2
            subst h2
            exact ⟨⟨fun hEq => absurd hEq hf,
              fun hIdx => absurd (show (0 : Nat) = 1 from hIdx) (by decide)⟩,
              hle, hfw, hfr⟩
          · rw [if_neg hwl] at h
            simp at h

/-- A successful `Init` with `start_lsn ≤ end_lsn` (both valid 64-bit LSNs)
establishes `cursorInv`. -/
theorem init_inv (s0 : WalState) (start_lsn end_lsn : Nat) (s : WalState)
    (hse : start_lsn ≤ end_lsn) (hlt : end_lsn < 2 ^ 64)
    (h : init s0 start_lsn end_lsn = (true, s)) : cursorInv s := by
  have h64 : (2 : Nat) ^ 64 = 4294967296 * 4294967296 := by norm_num
  rw [h64] at hlt
  have hfile_le : lsnFile start_lsn ≤ lsnFile end_lsn := by
    unfold lsnFile U32
    have h1 : start_lsn / 4294967296 ≤ end_lsn / 4294967296 := Nat.div_le_div_right hse
    have h2 : end_lsn / 4294967296 < 4294967296 := Nat.div_lt_of_lt_mul hlt
    rw [Nat.mod_eq_of_lt h2, Nat.mod_eq_of_lt (Nat.lt_of_le_of_lt h1 h2)]
    exact h1
  have hfw : lsnFile end_lsn < U32 := Nat.mod_lt _ (by unfold U32; omega)
  have hfr : lsnFile start_lsn < U32 := Nat.mod_lt _ (by unfold U32; omega)
  simp only [init] at h
  by_cases heq : start_lsn = end_lsn
  · subst heq
    rw [if_pos rfl] at h
    by_cases ho : lsnOffset start_lsn ≠ 0
    · rw [if_pos ho] at h
      exact initAlloc_inv _ s (Nat.le_refl _)
        (Nat.mod_lt _ (by unfold U32; omega)) (Nat.mod_lt _ (by unfold U32; omega)) h
    · rw [if_neg ho] at h
      exact initAlloc_inv _ s (Nat.le_refl _) hfw hfr h
  · rw [if_neg heq] at h
    cases hsc : scanNeed s0.disk (lsnFile start_lsn)
        (lsnFile end_lsn - lsnFile start_lsn) with
    | none =>
      rw [hsc] at h
      simp at h
    | some m =>
      rw [hsc] at h
      dsimp only at h
      by_cases hgrow : s0.mxlog_buffer_size < Nat.max m (lsnOffset end_lsn)
      · rw [if_pos hgrow] at h
        exact initAlloc_inv _ s hfile_le hfw hfr h
      · rw [if_neg hgrow] at h
        exact initAlloc_inv _ s hfile_le hfw hfr h

/-- States reachable from a successful `Init` (with a well-formed LSN range)
or from any `Reset`, by `Append` and `Next` calls in any environment,
provided no `Append` rollover wraps `writer.file_no` past `uint32`. -/
inductive Reachable : WalState → Prop
  | init_ok (s0 : WalState) (start_lsn end_lsn : Nat) (s : WalState)
      (hse : start_lsn ≤ end_lsn) (hlt : end_lsn < 2 ^ 64)
      (h : init s0 start_lsn end_lsn = (true, s)) : Reachable s
  | reset_base (s0 : WalState) (lsn : Nat) : Reachable (reset s0 lsn)
  | step_append (s : WalState) (env : WalEnv) (r : MXLogRecord)
      (hs : Reachable s)
      (hg : surplusSpace s < recordSize r → s.writer.file_no + 1 < U32) :
      Reachable ((append env s r).2.1)
  | step_next (s : WalState) (env : WalEnv) (lal : Nat) (r0 : MXLogRecord)
      (hs : Reachable s) : Reachable ((next env s lal r0).2.1)

/-- A minimal initialized buffer for the C5 counterexample: 64-byte slabs,
both LSNs zero, and a (short) file `5.wal` on disk for `SetWriteLsn` to
open. -/
def c5state : WalState :=
  ⟨64, List.replicate 64 0, List.replicate 64 0, ⟨0, 0, 0, 0⟩, ⟨0, 0, 0, 0⟩, 0, .W, false,
    fun n => if n = 5 then some [] else none⟩

/-- C5, counterexample to the claim as stated: the slab-sharing invariant is
not preserved by `SetWriteLsn`.  From the state produced by a successful
`Init(0, 0)`, a successful `SetWriteLsn(BuildLsn(5, 0))` (one of the calls
the claim closes the reachable set under) yields a state with
`reader.file_no ≠ writer.file_no` and yet `reader.buf_idx =
writer.buf_idx`: `SetWriteLsn` repoints the writer to a fresh file without
flipping the writer's slab index, so both cursors keep addressing slab 0. -/
theorem c5_setwritelsn_breaks_sharing :
    (init c5state 0 0).1 = true ∧
    (setWriteLsn envOk (init c5state 0 0).2 (buildLsn 5 0)).1 = true ∧
    (setWriteLsn envOk (init c5state 0 0).2 (buildLsn 5 0)).2.reader.file_no
      ≠ (setWriteLsn envOk (init c5state 0 0).2 (buildLsn 5 0)).2.writer.file_no ∧
    (setWriteLsn envOk (init c5state 0 0).2 (buildLsn 5 0)).2.reader.buf_idx
      = (setWriteLsn envOk (init c5state 0 0).2 (buildLsn 5 0)).2.writer.buf_idx := by
  decide

/-- C5 (amended): slab-sharing invariant.  In every state reachable from a
successful `Init` (on a valid LSN range `start_lsn ≤ end_lsn < 2^64`) or
from a `Reset` by any sequence of `Append` and `Next` calls — `SetWriteLsn`
excluded, and no `Append` rollover wrapping `writer.file_no` past `uint32`
— `reader.file_no = writer.file_no` implies `reader.buf_idx =
writer.buf_idx` (both cursors address the same slab), and `reader.file_no ≠
writer.file_no` implies `reader.buf_idx ≠ writer.buf_idx` (they address
different slabs). -/
theorem c5_slab_sharing (s : WalState) (h : Reachable s) :
    (s.reader.file_no = s.writer.file_no → s.reader.buf_idx = s.writer.buf_idx)
    ∧ (s.reader.file_no ≠ s.writer.file_no → s.reader.buf_idx ≠ s.writer.buf_idx) := by
  have hinv : cursorInv s := by
    induction h with
    | init_ok s0 a b t hse hlt h => exact init_inv s0 a b t hse hlt h
    | reset_base s0 lsn => exact cursorInv_reset s0 lsn
    | step_append t env r hs hg ih => exact cursorInv_append env t r ih hg
    | step_next t env lal r0 hs ih => exact cursorInv_next env t lal r0 ih
  exact ⟨fun hEq => hinv.1.mp hEq, fun hne hIdx => hne (hinv.1.mpr hIdx)⟩

/-- Witness for the amended C5 theorem: the invariant instantiated at the
concrete reachable state `Reset(c5state, 0)`. -/
theorem c5_slab_sharing_witness :
    ((reset c5state 0).reader.file_no = (reset c5state 0).writer.file_no
      → (reset c5state 0).reader.buf_idx = (reset c5state 0).writer.buf_idx)
    ∧ ((reset c5state 0).reader.file_no ≠ (reset c5state 0).writer.file_no
      → (reset c5state 0).reader.buf_idx ≠ (reset c5state 0).writer.buf_idx) :=
  c5_slab_sharing (reset c5state 0) (Reachable.reset_base c5state 0)
